import Mathlib

/-!
Verification of the StatementGuard PTSTMT validation engine.

This file gives a shallow embedding of the repository's core code:

* `src/src/utils/data_utils.py` — field decoder (`slice_num`, `slice_str`,
  `extract_posting_date`, `extract_card_number`, `to_date`, `custom_round`);
* `src/src/core/validation.py` — `PTSTMTValidator.process_file`,
  `_validate_block` and the four post-pass report generators;
* `src/bridge.py` — `process_validation_realtime` (identical record loop,
  differing only in the target-header-type selection).

Lines are modelled as `List Char`.  Python dictionaries (which preserve
insertion order) are modelled as association lists updated in place.
Python exceptions raised by `datetime.strptime` are modelled as
`Except Unit`.  Python floats are idealised as exact rationals: the only
non-integer arithmetic in the source is `expected_new * 0.05`, modelled as
the exact rational `5 * expected_new / 100`.
-/

/-- Whitespace test matching Python's `str.strip` / `str.isspace` over the
latin-1 range: tab, newline, vertical tab, form feed, carriage return,
space, the separator controls 0x1c-0x1f, next-line 0x85 and no-break
space 0xa0. -/
def isWS (c : Char) : Bool :=
  c = ' ' || c = '\t' || c = '\n' || c = '\r' || c = '\x0b' || c = '\x0c' ||
  c = '\x1c' || c = '\x1d' || c = '\x1e' || c = '\x1f' || c = '\x85' ||
  c = '\xa0'

/-- Python `s.strip()`: drop leading and trailing whitespace. -/
def stripWS (s : List Char) : List Char :=
  ((s.dropWhile isWS).reverse.dropWhile isWS).reverse

/-- Python `s.rstrip()`: drop trailing whitespace. -/
def rstripWS (s : List Char) : List Char :=
  (s.reverse.dropWhile isWS).reverse

/-- Python slicing `l[a:b]` for `0 ≤ a ≤ b` (out-of-range indices clamp). -/
def pySlice (l : List Char) (a b : Nat) : List Char :=
  (l.drop a).take (b - a)

/-- Python `str.isdigit` on a latin-1 character: the ASCII digits together
with the superscript digits 0xb9, 0xb2, 0xb3. -/
def pyIsDigit (c : Char) : Bool :=
  c.isDigit || c = '\xb2' || c = '\xb3' || c = '\xb9'

/-- Python `s.isdigit()` over latin-1 strings (empty is false). -/
def isdigitStr (s : List Char) : Bool :=
  !s.isEmpty && s.all pyIsDigit

/-- Decimal value of a digit string, as Python `int` on an all-digit string. -/
def parseDigits (s : List Char) : Nat :=
  s.foldl (fun a c => a * 10 + (c.toNat - 48)) 0

/-- Numeric decoding of an already extracted-and-trimmed field, from the body
of `slice_num` in `data_utils.py`: empty field is 0; a trailing `-` negates
the re-trimmed remainder when `str.isdigit` accepts it and otherwise gives
0; a field `str.isdigit` accepts parses directly; anything else gives 0.
Python's `int()` raises `ValueError` on the latin-1 superscript digits that
`str.isdigit` accepts, so an isdigit-true field (or trailing-minus
remainder) that is not all ASCII digits raises; `Except.error` models the
raised `ValueError`. -/
def decodeNumField (field : List Char) : Except Unit Int :=
  if field.isEmpty then .ok 0
  else if field.getLast? = some '-' then
    let num := stripWS field.dropLast
    if isdigitStr num then
      (if num.all Char.isDigit then .ok (-(parseDigits num : Int))
       else .error ())
    else .ok 0
  else if isdigitStr field then
    (if field.all Char.isDigit then .ok (parseDigits field : Int)
     else .error ())
  else .ok 0

/-- Embedding of `slice_str(line, start, end)`: the Python slice
`line[start-1:end]`, trimmed. -/
def slice_str (l : List Char) (start stop : Nat) : List Char :=
  stripWS (pySlice l (start - 1) stop)

/-- Embedding of `slice_num(line, start, end)`; the error is the
`ValueError` that `int()` raises on an isdigit-true non-decimal field. -/
def slice_num (l : List Char) (start stop : Nat) : Except Unit Int :=
  decodeNumField (stripWS (pySlice l (start - 1) stop))

/-- Embedding of `extract_posting_date(line)`: `line[75:89]` then `[6:16]`
of that segment. -/
def extract_posting_date (l : List Char) : List Char :=
  pySlice (pySlice l 75 89) 6 16

/-- Embedding of `extract_card_number(line)`: `line[27:43].strip()`. -/
def extract_card_number (l : List Char) : List Char :=
  stripWS (pySlice l 27 43)

/-- Calendar date produced by the date parser (proleptic Gregorian, as
Python `datetime.date`). -/
structure PyDate where
  y : Nat
  m : Nat
  d : Nat
deriving DecidableEq

/-- Total order key for dates; comparison of `datetime.date` values is
lexicographic on (year, month, day). -/
def PyDate.key (dt : PyDate) : Nat :=
  dt.y * 10000 + dt.m * 100 + dt.d

/-- Digit value of a character, `none` for non-digits. -/
def dv (c : Char) : Option Nat :=
  if c.isDigit then some (c.toNat - 48) else none

/-- Month alternatives of CPython `strptime`'s `%m` regex
`(1[0-2]|0[1-9]|[1-9])`, in source order, each with the unconsumed rest. -/
def monthAlts (s : List Char) : List (Nat × List Char) :=
  (match s with
   | c1 :: c2 :: rest =>
     match dv c1, dv c2 with
     | some 1, some k => if k ≤ 2 then [(10 + k, rest)] else []
     | _, _ => []
   | _ => []) ++
  (match s with
   | c1 :: c2 :: rest =>
     match dv c1, dv c2 with
     | some 0, some k => if 1 ≤ k then [(k, rest)] else []
     | _, _ => []
   | _ => []) ++
  (match s with
   | c1 :: rest =>
     match dv c1 with
     | some k => if 1 ≤ k then [(k, rest)] else []
     | none => []
   | _ => [])

/-- Day alternatives of CPython `strptime`'s `%d` regex
`(3[0-1]|[1-2]\d|0[1-9]|[1-9]| [1-9])`, in source order; the fifth
alternative is a space followed by a nonzero digit. -/
def dayAlts (s : List Char) : List (Nat × List Char) :=
  (match s with
   | c1 :: c2 :: rest =>
     match dv c1, dv c2 with
     | some 3, some k => if k ≤ 1 then [(30 + k, rest)] else []
     | _, _ => []
   | _ => []) ++
  (match s with
   | c1 :: c2 :: rest =>
     match dv c1, dv c2 with
     | some k1, some k2 => if k1 = 1 ∨ k1 = 2 then [(k1 * 10 + k2, rest)] else []
     | _, _ => []
   | _ => []) ++
  (match s with
   | c1 :: c2 :: rest =>
     match dv c1, dv c2 with
     | some 0, some k => if 1 ≤ k then [(k, rest)] else []
     | _, _ => []
   | _ => []) ++
  (match s with
   | c1 :: rest =>
     match dv c1 with
     | some k => if 1 ≤ k then [(k, rest)] else []
     | none => []
   | _ => []) ++
  (match s with
   | c1 :: c2 :: rest =>
     if c1 = ' ' then
       match dv c2 with
       | some k => if 1 ≤ k then [(k, rest)] else []
       | none => []
     else []
   | _ => [])

/-- Gregorian leap-year test, as Python `calendar`/`datetime`. -/
def isLeap (y : Nat) : Bool :=
  y % 4 = 0 && (y % 100 ≠ 0 || y % 400 = 0)

/-- Number of days in a month, as validated by the `datetime.date`
constructor. -/
def daysInMonth (y m : Nat) : Nat :=
  if m = 2 then (if isLeap y then 29 else 28)
  else if m = 4 ∨ m = 6 ∨ m = 9 ∨ m = 11 then 30
  else 31

/-- Embedding of `to_date(yyyymmdd)`, which is
`datetime.datetime.strptime(yyyymmdd, "%Y%m%d").date()`.  CPython compiles
the format to the regex `(?P<Y>\d\d\d\d)(?P<m>1[0-2]|0[1-9]|[1-9])`
`(?P<d>3[01]|[12]\d|0[1-9]|[1-9])`, takes the backtracking engine's first
match, raises if unconsumed characters remain, and then builds
`datetime.date(y, m, d)` which validates the calendar range.
`none` models the raised `ValueError`. -/
def to_date (s : List Char) : Option PyDate :=
  match s with
  | c0 :: c1 :: c2 :: c3 :: t =>
    match dv c0, dv c1, dv c2, dv c3 with
    | some a, some b, some c, some d =>
      let y := ((a * 10 + b) * 10 + c) * 10 + d
      match (monthAlts t).findSome?
          (fun mc => (dayAlts mc.2).head?.map (fun dc => (mc.1, dc.1, dc.2))) with
      | some (m, dy, rest) =>
        if rest = [] ∧ 1 ≤ y ∧ dy ≤ daysInMonth y m then
          some ⟨y, m, dy⟩
        else none
      | none => none
    | _, _, _, _ => none
  | _ => none

/-- Embedding of `custom_round(x)` from `data_utils.py` on numeric input:
`integer = int(x)` truncates toward zero, which for an exact rational is
`x.num.tdiv x.den`; `decimal = x - integer`; the test `decimal >= 0.5` is
`x.den ≤ 2 * (x.num - integer * x.den)` after clearing the positive
denominator. -/
def custom_round (x : ℚ) : ℤ :=
  let i : ℤ := x.num.tdiv x.den
  if (x.den : ℤ) ≤ 2 * (x.num - i * x.den) then i + 1 else i

/-- Wrapper argument type for `custom_round`'s documented pass-through: the
source returns its argument unchanged when `float(x)` raises. -/
inductive PyVal where
  | num (q : ℚ)
  | raw (s : List Char)
deriving DecidableEq

/-- Embedding of `custom_round` including the non-numeric pass-through
branch (`except (ValueError, TypeError): return x`). -/
def custom_round_py : PyVal → PyVal
  | .num q => .num ((custom_round q : ℤ) : ℚ)
  | .raw s => .raw s

/-- Record-type tokens registered in `card_records` / `customer_sequences`;
every append site in the source appends one of the literals
`"01"`, `"02"`, `"03"`, `"04"`. -/
inductive RT where
  | r01
  | r02
  | r03
  | r04
deriving DecidableEq

/-- States of the deterministic automaton equivalent to the source regex
`^01(02(03)*04)((02|03)(03)*04)*$` read token by token (all regex atoms
are whole two-character tokens, so matching the joined string is matching
the token list). -/
inductive SState where
  | s0
  | s1
  | s2
  | s3
  | dead
deriving DecidableEq

/-- Transition function: `s0` expects `01`; `s1` expects the first cycle's
`02`; `s2` is inside a cycle consuming `03`s until `04`; `s3` is the
accepting cycle boundary where `02` or `03` may open a further cycle. -/
def dfaStep : SState → RT → SState
  | .s0, .r01 => .s1
  | .s1, .r02 => .s2
  | .s2, .r03 => .s2
  | .s2, .r04 => .s3
  | .s3, .r02 => .s2
  | .s3, .r03 => .s2
  | _, _ => .dead

/-- Embedding of `re.compile(r"^01(02(03)*04)((02|03)(03)*04)*$").match` on
a joined sequence of record-type tokens. -/
def seqValid (l : List RT) : Bool :=
  (l.foldl dfaStep .s0) = .s3

/-- Header fields captured by `process_file` when a target-header record is
seen (the `current_header` dictionary). -/
structure Header where
  card : List Char
  prev : Int
  int : Int
  cr_limit : Int
  instl : Int
  new_bal : Int
  amount_due : Int
  avl_actual : Int
deriving DecidableEq

/-- One row appended to `validations` by `_validate_block`'s `check`. -/
structure VRow where
  card : List Char
  field : String
  expected : Int
  actual : Int
  status : String
deriving DecidableEq

/-- One row of the structure report. -/
structure StructRow where
  customer : List Char
  has_01 : String
  has_02 : String
  has_03 : String
  has_04 : String
  status : String
  missing : List RT
deriving DecidableEq

/-- Duplicate-tracking key `(card, posting_date, trx_detail, trx_amt,
trx_dir)`. -/
structure DupKey where
  card : List Char
  posting : PyDate
  detail : List Char
  amount : Int
  dir : List Char
deriving DecidableEq

/-- One row of the duplicate report. -/
structure DupRow where
  key : DupKey
  count : Nat
deriving DecidableEq

/-- One row of the filtered-transactions report. -/
structure FilteredRow where
  posting : PyDate
  card : List Char
  line : List Char
deriving DecidableEq

/-- One row of the zero-amount report. -/
structure ZeroRow where
  card : List Char
  posting : PyDate
  detail : List Char
  amount : Int
  dir : List Char
deriving DecidableEq

/-- One row of the total-payment report. -/
structure TotRow where
  card : List Char
  tot_payment : Int
  has_cr : String
  cr_total : Int
  status : String
deriving DecidableEq

/-- One row of the sequence report; `seq` carries the token list whose
joined rendering the source stores as `"->".join(seq)`. -/
structure SeqRow where
  customer : List Char
  seq : List RT
  status : String
deriving DecidableEq

/-- Aggregate result mirroring the `ValidationResult` dataclass. -/
structure ValidationResult where
  filtered_transactions : List FilteredRow
  validations : List VRow
  structure_results : List StructRow
  duplicate_transactions : List DupRow
  zero_amount_transactions : List ZeroRow
  tot_payment_results : List TotRow
  sequence_results : List SeqRow
deriving DecidableEq

/-- Run configuration: the block-opening header type, the card type and the
inclusive posting-date window. -/
structure Config where
  target : List Char
  card_type : String
  from_date : PyDate
  until_date : PyDate

/-- First-match lookup in an association list (Python `dict` access). -/
def alGet {K V : Type} [DecidableEq K] : List (K × V) → K → Option V
  | [], _ => none
  | (k', v) :: t, k => if k' = k then some v else alGet t k

/-- In-place update of an association list: replace the value at an existing
key, preserving its position, else append a fresh entry — Python `dict`
assignment semantics. -/
def alUpdate {K V : Type} [DecidableEq K] :
    List (K × V) → K → (V → V) → V → List (K × V)
  | [], k, f, dflt => [(k, f dflt)]
  | (k', v) :: t, k, f, dflt =>
    if k' = k then (k', f v) :: t else (k', v) :: alUpdate t k f dflt

/-- Insertion-ordered set union with a single element (Python `set.add`,
with the enumeration order irrelevant to every claim considered). -/
def setAdd (l : List RT) (x : RT) : List RT :=
  if x ∈ l then l else l ++ [x]

/-- Python truthiness of an optional string: `None` and `""` are falsy. -/
def truthy : Option (List Char) → Bool
  | none => false
  | some s => !s.isEmpty

/-- Mutable state of one run of `process_file` (all local collectors and
the current-block slots). -/
structure PState where
  filtered : List FilteredRow
  validations : List VRow
  card_records : List (List Char × List RT)
  transaction_tracker : List (DupKey × Nat)
  card_transactions : List (List Char × List (List Char × Int))
  card_tot_payment : List (List Char × Int)
  zero_amount : List ZeroRow
  customer_sequences : List (List Char × List RT)
  header : Option Header
  stats : List Char → Int
  customer : Option (List Char)
  card : Option (List Char)

/-- Record-type literal `"01"`. -/
def t01 : List Char := ['0', '1']

/-- Record-type literal `"02"`. -/
def t02 : List Char := ['0', '2']

/-- Record-type literal `"03"`. -/
def t03 : List Char := ['0', '3']

/-- Record-type literal `"04"`. -/
def t04 : List Char := ['0', '4']

/-- Direction literal `"DR"`. -/
def keyDR : List Char := ['D', 'R']

/-- Direction literal `"CR"`. -/
def keyCR : List Char := ['C', 'R']

/-- Initial run state: empty collectors, no open block, no current customer
or card, and the statistics map `{"DR": 0, "CR": 0}` (modelled as the
everywhere-zero function, matching `dict.get(key, 0)` reads). -/
def initState : PState where
  filtered := []
  validations := []
  card_records := []
  transaction_tracker := []
  card_transactions := []
  card_tot_payment := []
  zero_amount := []
  customer_sequences := []
  header := none
  stats := fun _ => 0
  customer := none
  card := none

/-- Build of the `check` row dictionaries inside `_validate_block`. -/
def check (card : List Char) (f : String) (exp act : Int) : VRow :=
  ⟨card, f, exp, act, if exp = act then "PASS" else "FAIL"⟩

/-- Embedding of `_validate_block(header, stats, validations, card_type)`
returning the three rows it appends.  `expected_new * 0.05` is the exact
rational `mkRat (5 * expected_new) 100`. -/
def validate_block (header : Header) (stats : List Char → Int)
    (card_type : String) : List VRow :=
  let expected_new :=
    custom_round ((stats keyDR + header.prev + header.int - stats keyCR : ℤ) : ℚ)
  let expected_avl :=
    custom_round ((header.cr_limit - expected_new - header.instl : ℤ) : ℚ)
  let mp0 :=
    if card_type = "CORPORATE" then expected_new
    else
      let m := custom_round (mkRat (5 * expected_new) 100)
      if m < 50000 then 50000 else m
  let expected_min_pay := if expected_new ≤ 0 then 0 else mp0
  [check header.card "NEW_BAL" expected_new header.new_bal,
   check header.card "AVL_CR_LIMIT" expected_avl header.avl_actual,
   check header.card "PT_SH_MIN_PAYMENT" expected_min_pay header.amount_due]

/-- Customer-record branch (`record_type == "01"`): set the current
customer, create its tracking entries if new, and register `"01"`. -/
def handleCustomer (st : PState) (l : List Char) : PState :=
  let cust := slice_str l 3 18
  let st :=
    if (alGet st.card_records cust).isNone then
      { st with
        card_records := st.card_records ++ [(cust, [])]
        customer_sequences := st.customer_sequences ++ [(cust, [])] }
    else st
  { st with
    customer := some cust
    card_records := alUpdate st.card_records cust (fun s => setAdd s .r01) []
    customer_sequences :=
      alUpdate st.customer_sequences cust (fun s => s ++ [.r01]) [] }

/-- Header fields decoded from a target-header line; the dict literal of
the source evaluates all seven `slice_num` calls, and any of them raising
`ValueError` aborts the run. -/
def headerOfLine (l : List Char) : Except Unit Header :=
  match slice_num l 324 338, slice_num l 399 413, slice_num l 279 292,
      slice_num l 891 900, slice_num l 414 428, slice_num l 264 277,
      slice_num l 294 308 with
  | .ok prev, .ok intr, .ok crl, .ok instl, .ok nb, .ok ad, .ok avl =>
    .ok ⟨slice_str l 28 43, prev, intr, crl, instl, nb, ad, avl⟩
  | _, _, _, _, _, _, _ => .error ()

/-- State update of the target-header branch once its numeric fields have
decoded to `hdr` and `tot`: validate any open block with the statistics
captured so far, then reset the statistics, open the new block, record its
declared total payment and empty transaction list, and register `"02"` for
a truthy current customer when the record type is `"02"`. -/
def applyHeader (cfg : Config) (st : PState) (l : List Char) (hdr : Header)
    (tot : Int) : PState :=
  let st :=
    match st.header with
    | some h =>
      { st with
        validations := st.validations ++ validate_block h st.stats cfg.card_type }
    | none => st
  let card := slice_str l 28 43
  let st :=
    { st with
      stats := fun _ => 0
      card := some card
      header := some hdr
      card_tot_payment := alUpdate st.card_tot_payment card (fun _ => tot) 0
      card_transactions := alUpdate st.card_transactions card (fun _ => []) [] }
  if l.take 2 = t02 ∧ truthy st.customer then
    match st.customer with
    | some cust =>
      { st with
        card_records := alUpdate st.card_records cust (fun s => setAdd s .r02) []
        customer_sequences :=
          alUpdate st.customer_sequences cust (fun s => s ++ [.r02]) [] }
    | none => st
  else st

/-- Target-header branch: decode the header fields and the declared total
payment (`slice_num(line, 354, 367)`); a `ValueError` from either aborts
the run, otherwise the state update applies. -/
def handleHeader (cfg : Config) (st : PState) (l : List Char) :
    Except Unit PState :=
  match headerOfLine l, slice_num l 354 367 with
  | .ok hdr, .ok tot => .ok (applyHeader cfg st l hdr tot)
  | _, _ => .error ()

/-- Date-filter update of the detail branch: append to the filtered list
when the posting date falls outside the inclusive window. -/
def detailFiltered (cfg : Config) (st : PState) (l : List Char) (pd : PyDate) :
    PState :=
  if pd.key < cfg.from_date.key ∨ cfg.until_date.key < pd.key then
    { st with
      filtered := st.filtered ++ [⟨pd, extract_card_number l, rstripWS l⟩] }
  else st

/-- Duplicate-tracking update of the detail branch (`amt` is the decoded
amount `slice_num(line, 149, 162)`). -/
def detailTracker (st : PState) (l : List Char) (pd : PyDate) (amt : Int) :
    PState :=
  { st with
    transaction_tracker :=
      alUpdate st.transaction_tracker
        ⟨extract_card_number l, pd, slice_str l 90 129, amt,
          slice_str l 163 164⟩ (fun n => n + 1) 0 }

/-- Per-card transaction-list update of the detail branch, guarded by the
truthiness of `current_card` and its membership in `card_transactions`. -/
def detailCardTx (st : PState) (l : List Char) (amt : Int) : PState :=
  match st.card with
  | some c =>
    if !c.isEmpty ∧ (alGet st.card_transactions c).isSome then
      { st with
        card_transactions :=
          alUpdate st.card_transactions c
            (fun ts => ts ++ [(slice_str l 163 164, amt)]) [] }
    else st
  | none => st

/-- Zero-amount update of the detail branch. -/
def detailZero (st : PState) (l : List Char) (pd : PyDate) (amt : Int) :
    PState :=
  if amt = 0 then
    { st with
      zero_amount := st.zero_amount ++
        [⟨extract_card_number l, pd, slice_str l 90 129, amt,
          slice_str l 163 164⟩] }
  else st

/-- Statistics update of the detail branch: when a block is open, add the
amount under the trimmed direction key. -/
def detailStats (st : PState) (l : List Char) (amt : Int) : PState :=
  match st.header with
  | some _ =>
    { st with
      stats := Function.update st.stats (slice_str l 163 164)
        (st.stats (slice_str l 163 164) + amt) }
  | none => st

/-- Customer registration of the detail branch. -/
def detailSeq (st : PState) : PState :=
  match st.customer with
  | some cust =>
    if !cust.isEmpty then
      { st with
        card_records := alUpdate st.card_records cust (fun s => setAdd s .r03) []
        customer_sequences :=
          alUpdate st.customer_sequences cust (fun s => s ++ [.r03]) [] }
    else st
  | none => st

/-- Detail-record branch (`record_type == "03"`), after the posting date
and the amount have decoded successfully: the six updates of the source,
in source order (date filter, duplicate tracker, per-card transactions,
zero-amount list, direction statistics, customer registration). -/
def applyDetail (cfg : Config) (st : PState) (l : List Char) (pd : PyDate)
    (amt : Int) : PState :=
  detailSeq (detailStats
    (detailZero (detailCardTx (detailTracker (detailFiltered cfg st l pd) l pd amt) l amt) l pd amt) l amt)

/-- Detail-record branch after the posting date has parsed: decode the
amount (`slice_num(line, 149, 162)`); its `ValueError` aborts the run,
otherwise the six state updates apply. -/
def handleDetail (cfg : Config) (st : PState) (l : List Char) (pd : PyDate) :
    Except Unit PState :=
  match slice_num l 149 162 with
  | .ok amt => .ok (applyDetail cfg st l pd amt)
  | .error e => .error e

/-- Trailer branch (`record_type == "04"`). -/
def handleTrailer (st : PState) : PState :=
  match st.customer with
  | some cust =>
    if !cust.isEmpty then
      { st with
        card_records := alUpdate st.card_records cust (fun s => setAdd s .r04) []
        customer_sequences :=
          alUpdate st.customer_sequences cust (fun s => s ++ [.r04]) [] }
    else st
  | none => st

/-- One iteration of the record loop of `process_file` /
`process_validation_realtime`.  The customer branch is an independent `if`
before the target/`"03"`/`"04"` chain, exactly as in the source; the
target branch raises when a header numeric field raises `ValueError`, and
the `"03"` branch raises when the posting date fails to parse
(`strptime`'s `ValueError`, checked first as in the source) or when the
amount field raises `ValueError`. -/
def stepLine (cfg : Config) (st : PState) (l : List Char) :
    Except Unit PState :=
  let rt := l.take 2
  let st := if rt = t01 then handleCustomer st l else st
  if rt = cfg.target then handleHeader cfg st l
  else if rt = t03 then
    match to_date (extract_posting_date l) with
    | some pd => handleDetail cfg st l pd
    | none => .error ()
  else if rt = t04 then .ok (handleTrailer st)
  else .ok st

/-- The record loop over all lines of the file. -/
def runLines (cfg : Config) (lines : List (List Char)) : Except Unit PState :=
  lines.foldlM (stepLine cfg) initState

/-- End-of-stream validation of a still-open block. -/
def finalize (cfg : Config) (st : PState) : PState :=
  match st.header with
  | some h =>
    { st with
      validations := st.validations ++ validate_block h st.stats cfg.card_type }
  | none => st

/-- Structure report generator (`_generate_structure_results`). -/
def generate_structure_results (recs : List (List Char × List RT)) :
    List StructRow :=
  recs.map (fun p =>
    let missing := [RT.r01, RT.r02, RT.r03, RT.r04].filter (fun r => r ∉ p.2)
    ⟨p.1,
     if RT.r01 ∈ p.2 then "Yes" else "No",
     if RT.r02 ∈ p.2 then "Yes" else "No",
     if RT.r03 ∈ p.2 then "Yes" else "No",
     if RT.r04 ∈ p.2 then "Yes" else "No",
     if missing.isEmpty then "VALID" else "INVALID",
     missing⟩)

/-- Duplicate report generator (`_generate_duplicate_results`). -/
def generate_duplicate_results (tr : List (DupKey × Nat)) : List DupRow :=
  tr.filterMap (fun p => if p.2 > 1 then some ⟨p.1, p.2⟩ else none)

/-- Total-payment report generator (`_generate_totpay_results`). -/
def generate_totpay_results (pay : List (List Char × Int))
    (txs : List (List Char × List (List Char × Int))) : List TotRow :=
  pay.map (fun p =>
    let ts := (alGet txs p.1).getD []
    let crs := ts.filter (fun t => t.1 = keyCR)
    let has_cr := !crs.isEmpty
    let cr_total := (crs.map (fun t => t.2)).sum
    ⟨p.1, p.2,
     if has_cr then "Yes" else "No",
     cr_total,
     if has_cr && p.2 == 0 then "INVALID" else "VALID"⟩)

/-- Sequence report generator (`_generate_sequence_results`). -/
def generate_sequence_results (seqs : List (List Char × List RT)) :
    List SeqRow :=
  seqs.map (fun p => ⟨p.1, p.2, if seqValid p.2 then "VALID" else "INVALID"⟩)

/-- Full embedding of `process_file`: run the record loop, validate a
trailing open block, then run the four post-pass generators. -/
def process_file (cfg : Config) (lines : List (List Char)) :
    Except Unit ValidationResult :=
  (runLines cfg lines).map (fun st0 =>
    let st := finalize cfg st0
    { filtered_transactions := st.filtered
      validations := st.validations
      structure_results := generate_structure_results st.card_records
      duplicate_transactions := generate_duplicate_results st.transaction_tracker
      zero_amount_transactions := st.zero_amount
      tot_payment_results := generate_totpay_results st.card_tot_payment st.card_transactions
      sequence_results := generate_sequence_results st.customer_sequences })

/-- Target-header-type selection of the class-based validator
(`PTSTMTValidator.__init__`):
`"02" if card_type == "REGULAR" else "01"`. -/
def validator_target (card_type : String) : List Char :=
  if card_type = "REGULAR" then t02 else t01

/-- Target-header-type selection of the streaming bridge
(`process_validation_realtime`): the default is `"02"` and the
`CORPORATE` branch redundantly assigns `"02"` again. -/
def bridge_target (card_type : String) : List Char :=
  if card_type = "CORPORATE" then t02 else t02

/-- Configuration used by `PTSTMTValidator.process_file`. -/
def validatorConfig (card_type : String) (f u : PyDate) : Config :=
  ⟨validator_target card_type, card_type, f, u⟩

/-- Configuration used by the bridge's record loop (identical line
processing, bridge target selection). -/
def bridgeConfig (card_type : String) (f u : PyDate) : Config :=
  ⟨bridge_target card_type, card_type, f, u⟩

instance {e a : Type} [DecidableEq e] [DecidableEq a] : DecidableEq (Except e a) := fun x y =>
  match x, y with
  | .ok u, .ok v =>
    if h : u = v then isTrue (by rw [h]) else isFalse (fun hc => by cases hc; exact h rfl)
  | .ok _, .error _ => isFalse (fun hc => by cases hc)
  | .error _, .ok _ => isFalse (fun hc => by cases hc)
  | .error u, .error v =>
    if h : u = v then isTrue (by rw [h]) else isFalse (fun hc => by cases hc; exact h rfl)

/-- Specification-language rounding, stated exactly as the spec describes
`round_half_up`: `i` is the truncation of `x` toward zero (floor for
non-negative `x`, ceiling for negative `x`), `frac = x - i`, and the result
is `i + 1` when `frac ≥ 0.5`, else `i`. -/
def round_half_up (x : ℚ) : ℤ :=
  let i : ℤ := if 0 ≤ x then ⌊x⌋ else ⌈x⌉
  if (1 : ℚ)/2 ≤ x - i then i + 1 else i

/-- Specification-language extraction of the closed, 1-based, inclusive
byte range `a..b` of a line (bytes `a` through `b`, both included). -/
def rangeBytes (l : List Char) (a b : Nat) : List Char :=
  (l.drop (a - 1)).take (b - a + 1)

/-- Trimmed text of a closed 1-based inclusive byte range. -/
def rangeText (l : List Char) (a b : Nat) : List Char :=
  stripWS (rangeBytes l a b)

/-- Numeric decoding of a closed 1-based inclusive byte range. -/
def rangeInt (l : List Char) (a b : Nat) : Except Unit Int :=
  decodeNumField (rangeText l a b)

/-- First-cycle pattern of the spec grammar: `02 (03)* 04`. -/
def IsFirstCycle (c : List RT) : Prop :=
  ∃ n, c = RT.r02 :: (List.replicate n RT.r03 ++ [RT.r04])

/-- Later-cycle pattern of the spec grammar: `(02|03) (03)* 04`. -/
def IsLaterCycle (c : List RT) : Prop :=
  ∃ s n, (s = RT.r02 ∨ s = RT.r03) ∧
    c = s :: (List.replicate n RT.r03 ++ [RT.r04])

/-- Declarative language of the anchored spec grammar
`01 (02 (03)* 04) ((02|03) (03)* 04)*`: the token list is `01`, a first
cycle, then any number of later cycles, with nothing left over. -/
def SeqLang (l : List RT) : Prop :=
  ∃ (c : List RT) (cs : List (List RT)), IsFirstCycle c ∧
    (∀ x ∈ cs, IsLaterCycle x) ∧ l = RT.r01 :: (c ++ cs.flatten)

/-- Relation between two lines that are identical except possibly for the
amount bytes (1-based 149-162, i.e. 0-based `[148, 162)`) of a `"03"`
record whose trimmed direction code is neither `"DR"` nor `"CR"`, where
the two amount fields decode with the same success status (both decode to
a value, or both raise `ValueError`). -/
def LineRel (l1 l2 : List Char) : Prop :=
  l1 = l2 ∨
  (l1.take 2 = t03 ∧ l2.take 2 = t03 ∧
   l1.take 148 = l2.take 148 ∧ l1.drop 162 = l2.drop 162 ∧
   (slice_num l1 149 162).isOk = (slice_num l2 149 162).isOk ∧
   slice_str l1 163 164 ≠ keyDR ∧ slice_str l1 163 164 ≠ keyCR)

/-- Relation between two run states that agree on the open block, the two
direction totals read by the block validator, and the emitted validations
(all other collectors are unconstrained). -/
instance (l1 l2 : List Char) : Decidable (LineRel l1 l2) := by
  unfold LineRel
  infer_instance

def StRel (s1 s2 : PState) : Prop :=
  s1.header = s2.header ∧
  s1.stats keyDR = s2.stats keyDR ∧
  s1.stats keyCR = s2.stats keyCR ∧
  s1.validations = s2.validations

/-- Predicate deciding whether processing a line raises: a target-header
record whose header numeric fields or declared total payment raise
`ValueError`, or a `"03"` record (that is not the configured target) with
an unparseable posting date or an amount field raising `ValueError`. -/
def lineAborts (cfg : Config) (l : List Char) : Bool :=
  if l.take 2 = cfg.target then
    !(headerOfLine l).isOk || !(slice_num l 354 367).isOk
  else if l.take 2 = t03 then
    (to_date (extract_posting_date l)).isNone || !(slice_num l 149 162).isOk
  else false

/-- Number of lines whose record-type code equals the target header type. -/
def headerCount (target : List Char) (lines : List (List Char)) : Nat :=
  lines.countP (fun l => decide (l.take 2 = target))

/-- Measure tracking pending validation rows: rows already emitted plus the
three rows an open block will still produce. -/
def vmeasure (st : PState) : Nat :=
  st.validations.length + (match st.header with | some _ => 3 | none => 0)

/-- Sample date-window start used by concrete runs. -/
def dw1 : PyDate := ⟨2025, 10, 16⟩

/-- Sample date-window end used by concrete runs. -/
def dw2 : PyDate := ⟨2025, 11, 15⟩

/-- Concrete REGULAR configuration. -/
def cfgR0 : Config := validatorConfig "REGULAR" dw1 dw2

/-- Concrete CORPORATE configuration of the class-based validator. -/
def corpValidatorCfg : Config := validatorConfig "CORPORATE" dw1 dw2

/-- Concrete CORPORATE configuration of the streaming bridge. -/
def corpBridgeCfg : Config := bridgeConfig "CORPORATE" dw1 dw2

/-- Concrete `"01"` line whose byte at 1-based position 324 is `'7'`, so the
class-based CORPORATE validator reads previous balance 7 from it. -/
def corpLine01 : List Char := t01 ++ List.replicate 321 ' ' ++ ['7']

/-- Concrete bare `"02"` line (every numeric field decodes to 0). -/
def corpLine02 : List Char := t02

/-- Concrete `"03"` detail line with posting date 2025-11-01, direction
`"XX"` and the given amount character at 1-based byte 149. -/
def detailLine (amtChar : Char) : List Char :=
  t03 ++ List.replicate 79 ' ' ++ "20251101".toList ++
    List.replicate 59 ' ' ++ [amtChar] ++ List.replicate 13 ' ' ++ ['X', 'X']

/-- Concrete detail line with amount 1. -/
def detailLineA : List Char := detailLine '1'

/-- Concrete detail line with amount 2. -/
def detailLineB : List Char := detailLine '2'

/-- Detail line whose amount field is the latin-1 superscript two, which
`str.isdigit` accepts but `int()` cannot parse. -/
def detailLineSup : List Char := detailLine '\xb2'

/-- Concrete `"01"` line with distinct letters around byte 3, separating
the 1-based ranges 3-18 and 4-18. -/
def custLineX : List Char := "01ABCDEFGHIJKLMNOPQR".toList

theorem tdiv_num_den_of_nonneg (q : ℚ) (h : 0 ≤ q) : q.num.tdiv q.den = ⌊q⌋ := by
  rw [Rat.floor_def]
  exact Int.tdiv_eq_ediv (Rat.num_nonneg.mpr h) (by positivity)

theorem tdiv_num_den_of_neg (q : ℚ) (h : q < 0) : q.num.tdiv q.den = ⌈q⌉ := by
  have h1 : (-q).num.tdiv (-q).den = ⌊-q⌋ := tdiv_num_den_of_nonneg (-q) (by linarith)
  have h2 : (-q).num = -q.num := by simp
  have h3 : (-q).den = q.den := by simp
  rw [h2, h3, Int.neg_tdiv] at h1
  have h4 : ⌈q⌉ = -⌊-q⌋ := by rw [← Int.ceil_neg, neg_neg]
  rw [h4, ← h1]
  ring

theorem half_le_sub_iff (x : ℚ) (i : ℤ) :
    ((1:ℚ)/2 ≤ x - i) ↔ ((x.den:ℤ) ≤ 2 * (x.num - i * x.den)) := by
  have hden : (0:ℚ) < ((x.den : ℤ) : ℚ) := by exact_mod_cast x.pos
  have hx : (x.num : ℚ) = x * ((x.den : ℤ) : ℚ) := by
    push_cast
    exact (div_eq_iff (by exact_mod_cast ne_of_gt x.pos)).mp (Rat.num_div_den x)
  constructor
  · intro h
    have h2 : ((x.den:ℤ) : ℚ) ≤ ((2 * (x.num - i * x.den) : ℤ) : ℚ) := by
      push_cast
      push_cast at hx
      rw [hx]
      nlinarith
    exact_mod_cast h2
  · intro h
    have h2 : ((x.den:ℤ) : ℚ) ≤ ((2 * (x.num - i * x.den) : ℤ) : ℚ) := by exact_mod_cast h
    push_cast at h2
    push_cast at hx
    rw [hx] at h2
    by_contra hc
    push_neg at hc
    have hden2 : (0:ℚ) < (x.den : ℚ) := by exact_mod_cast x.pos
    nlinarith [mul_lt_mul_of_pos_right hc hden2]

theorem custom_round_eq_spec (x : ℚ) : custom_round x = round_half_up x := by
  have hi : x.num.tdiv x.den = (if 0 ≤ x then ⌊x⌋ else ⌈x⌉) := by
    split
    · exact tdiv_num_den_of_nonneg x (by assumption)
    · next h => exact tdiv_num_den_of_neg x (not_le.mp h)
  rw [custom_round, round_half_up]
  simp only [← hi, ← half_le_sub_iff]

theorem custom_round_char (q : ℚ) :
    custom_round q = if 0 ≤ q then ⌊q + 1/2⌋ else ⌈q⌉ := by
  rw [custom_round_eq_spec, round_half_up]
  by_cases h : 0 ≤ q
  · simp only [h, if_true]
    by_cases h2 : (1:ℚ)/2 ≤ q - ⌊q⌋
    · simp only [h2, if_true]
      symm
      rw [Int.floor_eq_iff]
      push_cast
      constructor
      · have := Int.floor_le q
        linarith
      · have := Int.lt_floor_add_one q
        linarith
    · simp only [h2, if_false]
      symm
      rw [Int.floor_eq_iff]
      push_neg at h2
      constructor
      · have := Int.floor_le q
        linarith
      · linarith
  · simp only [h, if_false]
    have hc : ¬ ((1:ℚ)/2 ≤ q - ⌈q⌉) := by
      push_neg
      have := Int.le_ceil q
      linarith
    simp only [hc, if_false]

theorem custom_round_intCast (n : ℤ) : custom_round ((n : ℚ)) = n := by
  rw [custom_round_char]
  by_cases h : (0:ℚ) ≤ (n:ℚ)
  · simp only [h, if_true]
    rw [Int.floor_eq_iff]
    constructor
    · linarith
    · linarith
  · simp only [h, if_false, Int.ceil_intCast]

theorem fifty_floor_max (m : ℤ) : (if m < 50000 then 50000 else m) = max m 50000 := by
  rcases le_or_lt 50000 m with h | h
  · rw [if_neg (by omega), max_eq_left h]
  · rw [if_pos h, max_eq_right (by omega)]

theorem mkRat_five_pct (n : ℤ) : (mkRat (5 * n) 100 : ℚ) = (n : ℚ) * (5 / 100) := by
  rw [Rat.mkRat_eq_div]
  push_cast
  ring

/-- C7: `custom_round` converts its input to a numeric value, takes `i` as
the truncation toward zero, `frac = x - i`, and returns `i + 1` when
`frac ≥ 0.5`, else `i` (the behaviour the spec names `round_half_up`); in
particular it maps `2.5` to `3`, `2.4` to `2` and `-2.5` to `-2`; a
non-numeric argument is returned unchanged rather than raising. -/
theorem c7_round_half_up_spec :
    (∀ x : ℚ, custom_round x = round_half_up x) ∧
    custom_round ((5:ℚ)/2) = 3 ∧
    custom_round ((12:ℚ)/5) = 2 ∧
    custom_round ((-5:ℚ)/2) = -2 ∧
    (∀ s : List Char, custom_round_py (.raw s) = .raw s) := by
  refine ⟨custom_round_eq_spec, ?_, ?_, ?_, fun s => rfl⟩
  · rw [custom_round_char, if_pos (by norm_num)]
    rw [show (5:ℚ)/2 + 1/2 = ((3:ℤ) : ℚ) by norm_num]
    exact Int.floor_intCast 3
  · rw [custom_round_char, if_pos (by norm_num)]
    rw [Int.floor_eq_iff]
    norm_num
  · rw [custom_round_char, if_neg (by norm_num)]
    rw [Int.ceil_eq_iff]
    norm_num

/-- C1: for every closed block, `_validate_block` emits exactly the three
comparison records `NEW_BAL`, `AVL_CR_LIMIT`, `PT_SH_MIN_PAYMENT`:
expected `NEW_BAL` is `round_half_up(DR + prev + int - CR)`; expected
`AVL_CR_LIMIT` is `round_half_up(cr_limit - expected_new - instl)`;
expected `PT_SH_MIN_PAYMENT` is `expected_new` for `CORPORATE`, otherwise
`round_half_up(expected_new * 0.05)` raised to at least 50000, and is
forced to 0 whenever `expected_new ≤ 0` regardless of card type; each
status is `PASS` exactly when expected equals the header-reported actual,
and no error is raised. -/
theorem c1_block_validator_spec :
    ∀ (h : Header) (stats : List Char → Int) (ct : String),
      validate_block h stats ct =
        (let en := round_half_up ((stats keyDR + h.prev + h.int - stats keyCR : ℤ) : ℚ)
         let ea := round_half_up ((h.cr_limit - en - h.instl : ℤ) : ℚ)
         let mp := if en ≤ 0 then 0
                   else if ct = "CORPORATE" then en
                   else max (round_half_up (((en : ℤ) : ℚ) * (5 / 100))) 50000
         [⟨h.card, "NEW_BAL", en, h.new_bal,
            if en = h.new_bal then "PASS" else "FAIL"⟩,
          ⟨h.card, "AVL_CR_LIMIT", ea, h.avl_actual,
            if ea = h.avl_actual then "PASS" else "FAIL"⟩,
          ⟨h.card, "PT_SH_MIN_PAYMENT", mp, h.amount_due,
            if mp = h.amount_due then "PASS" else "FAIL"⟩]) := by
  intro h stats ct
  unfold validate_block check
  simp only [mkRat_five_pct, custom_round_eq_spec, fifty_floor_max]

/-- C2 counterexample: the processor's customer id for a concrete `"01"`
line is the trimmed text of 1-based bytes 3-18 (Python `line[2:18]`), not
of bytes 4-18 as the claim states, so the two disagree on a line whose
byte 3 is not blank. -/
theorem c2_counterexample :
    (handleCustomer initState custLineX).customer ≠
      some (rangeText custLineX 4 18) := by decide

theorem headerOfLine_ok (l : List Char) (hdr : Header)
    (h : headerOfLine l = .ok hdr) :
    hdr.card = slice_str l 28 43 ∧
    Except.ok hdr.prev = slice_num l 324 338 ∧
    Except.ok hdr.int = slice_num l 399 413 ∧
    Except.ok hdr.cr_limit = slice_num l 279 292 ∧
    Except.ok hdr.instl = slice_num l 891 900 ∧
    Except.ok hdr.new_bal = slice_num l 414 428 ∧
    Except.ok hdr.amount_due = slice_num l 264 277 ∧
    Except.ok hdr.avl_actual = slice_num l 294 308 := by
  unfold headerOfLine at h
  revert h
  cases slice_num l 324 338 <;> cases slice_num l 399 413 <;>
    cases slice_num l 279 292 <;> cases slice_num l 891 900 <;>
    cases slice_num l 414 428 <;> cases slice_num l 264 277 <;>
    cases slice_num l 294 308 <;> intro h <;> cases h <;>
    exact ⟨rfl, rfl, rfl, rfl, rfl, rfl, rfl, rfl⟩

/-- C2 amended: every field is extracted from the closed, 1-based,
inclusive byte range starting one byte earlier than the claim lists: the
customer id of a `"01"` record is the trimmed text of bytes 3-18; a
header's card number is bytes 28-43, its previous balance the decoded
integer of bytes 324-338, interest bytes 399-413, credit limit bytes
279-292, and new balance bytes 414-428; a detail record's text is bytes
90-129, its amount bytes 149-162, and its direction the trimmed text of
the two bytes 163-164, not the single byte 164. -/
theorem c2_amended_offsets :
    ∀ l : List Char,
      (handleCustomer initState l).customer = some (rangeText l 3 18) ∧
      slice_str l 28 43 = rangeText l 28 43 ∧
      slice_num l 324 338 = rangeInt l 324 338 ∧
      slice_num l 399 413 = rangeInt l 399 413 ∧
      slice_num l 279 292 = rangeInt l 279 292 ∧
      slice_num l 414 428 = rangeInt l 414 428 ∧
      slice_str l 90 129 = rangeText l 90 129 ∧
      slice_num l 149 162 = rangeInt l 149 162 ∧
      slice_str l 163 164 = rangeText l 163 164 ∧
      (∀ hdr : Header, headerOfLine l = .ok hdr →
        hdr.card = rangeText l 28 43 ∧
        Except.ok hdr.prev = rangeInt l 324 338 ∧
        Except.ok hdr.int = rangeInt l 399 413 ∧
        Except.ok hdr.cr_limit = rangeInt l 279 292 ∧
        Except.ok hdr.new_bal = rangeInt l 414 428) := by
  intro l
  refine ⟨rfl, rfl, rfl, rfl, rfl, rfl, rfl, rfl, rfl, ?_⟩
  intro hdr h
  have hk := headerOfLine_ok l hdr h
  exact ⟨hk.1, hk.2.1, hk.2.2.1, hk.2.2.2.1, hk.2.2.2.2.2.1⟩

/-- C2 witness: on a bare `"02"` line every header field is empty, the
header decodes successfully, and its numeric fields are all 0. -/
theorem c2_witness :
    (⟨[], 0, 0, 0, 0, 0, 0, 0⟩ : Header).card = rangeText t02 28 43 ∧
    Except.ok ((⟨[], 0, 0, 0, 0, 0, 0, 0⟩ : Header).prev) =
      rangeInt t02 324 338 ∧
    Except.ok ((⟨[], 0, 0, 0, 0, 0, 0, 0⟩ : Header).int) =
      rangeInt t02 399 413 ∧
    Except.ok ((⟨[], 0, 0, 0, 0, 0, 0, 0⟩ : Header).cr_limit) =
      rangeInt t02 279 292 ∧
    Except.ok ((⟨[], 0, 0, 0, 0, 0, 0, 0⟩ : Header).new_bal) =
      rangeInt t02 414 428 :=
  (c2_amended_offsets t02).2.2.2.2.2.2.2.2.2 ⟨[], 0, 0, 0, 0, 0, 0, 0⟩
    (by rfl)

theorem isdigitStr_getLast_ne_dash (f : List Char)
    (h : isdigitStr f = true) : f.getLast? ≠ some '-' := by
  intro hlast
  have hmem : '-' ∈ f := List.mem_of_getLast?_eq_some hlast
  have := (List.all_eq_true.mp (Bool.and_elim_right h)) '-' hmem
  exact absurd this (by decide)

theorem decodeNumField_cases (f : List Char) :
    (f.isEmpty = true → decodeNumField f = .ok 0) ∧
    (f.getLast? = some '-' → isdigitStr (stripWS f.dropLast) = true →
      (stripWS f.dropLast).all Char.isDigit = true →
      decodeNumField f = .ok (-(parseDigits (stripWS f.dropLast) : Int))) ∧
    (f.getLast? = some '-' → isdigitStr (stripWS f.dropLast) = false →
      decodeNumField f = .ok 0) ∧
    (isdigitStr f = true → f.all Char.isDigit = true →
      decodeNumField f = .ok (parseDigits f : Int)) ∧
    (f.isEmpty = false → f.getLast? ≠ some '-' → isdigitStr f = false →
      decodeNumField f = .ok 0) ∧
    (f.getLast? = some '-' → isdigitStr (stripWS f.dropLast) = true →
      (stripWS f.dropLast).all Char.isDigit = false →
      decodeNumField f = .error ()) ∧
    (isdigitStr f = true → f.all Char.isDigit = false →
      decodeNumField f = .error ()) := by
  refine ⟨?_, ?_, ?_, ?_, ?_, ?_, ?_⟩
  · intro h
    simp [decodeNumField, h]
  · intro h1 h2 h3
    have he : f.isEmpty = false := by
      cases f with
      | nil => exact absurd h1 (by simp)
      | cons x t => rfl
    simp [decodeNumField, he, h1, h2, h3]
  · intro h1 h2
    have he : f.isEmpty = false := by
      cases f with
      | nil => exact absurd h1 (by simp)
      | cons x t => rfl
    simp [decodeNumField, he, h1, h2]
  · intro h1 h2
    have he : f.isEmpty = false := by
      have := Bool.and_elim_left h1
      simp only [Bool.not_eq_true'] at this
      exact this
    have hl := isdigitStr_getLast_ne_dash f h1
    simp [decodeNumField, he, hl, h1, h2]
  · intro h1 h2 h3
    simp [decodeNumField, h1, h2, h3]
  · intro h1 h2 h3
    have he : f.isEmpty = false := by
      cases f with
      | nil => exact absurd h1 (by simp)
      | cons x t => rfl
    simp [decodeNumField, he, h1, h2, h3]
  · intro h1 h2
    have he : f.isEmpty = false := by
      have := Bool.and_elim_left h1
      simp only [Bool.not_eq_true'] at this
      exact this
    have hl := isdigitStr_getLast_ne_dash f h1
    simp [decodeNumField, he, hl, h1, h2]

/-- C6 counterexample: on a field holding the latin-1 superscript two —
which Python `str.isdigit` accepts but `int()` cannot parse — `slice_num`
raises `ValueError` instead of returning a value, so the claim's "without
raising any error" direction is false. -/
theorem c6_counterexample :
    slice_num ['\xb2'] 1 1 = Except.error () := by decide

/-- C6 amended: `slice_num` returns 0 on an empty or whitespace-only
extract; on an extract ending in `-` it returns the negation of the
remainder's magnitude when the re-trimmed remainder is isdigit-accepted
and all ASCII digits (so `"1234-"` decodes to `-1234`), and 0 when the
remainder is not isdigit-accepted; an isdigit-accepted all-ASCII-digit
extract parses directly; every other non-empty extract yields 0 — except
that an extract (or trailing-minus remainder) that `str.isdigit` accepts
while containing a latin-1 superscript digit makes `int()` raise
`ValueError` instead of returning a value. -/
theorem c6_decode_integer_spec :
    ∀ (l : List Char) (a b : Nat),
      ((stripWS (pySlice l (a - 1) b)).isEmpty = true →
        slice_num l a b = .ok 0) ∧
      ((stripWS (pySlice l (a - 1) b)).getLast? = some '-' →
        isdigitStr (stripWS (stripWS (pySlice l (a - 1) b)).dropLast) = true →
        (stripWS (stripWS (pySlice l (a - 1) b)).dropLast).all Char.isDigit = true →
        slice_num l a b =
          .ok (-(parseDigits (stripWS (stripWS (pySlice l (a - 1) b)).dropLast) : Int))) ∧
      ((stripWS (pySlice l (a - 1) b)).getLast? = some '-' →
        isdigitStr (stripWS (stripWS (pySlice l (a - 1) b)).dropLast) = false →
        slice_num l a b = .ok 0) ∧
      (isdigitStr (stripWS (pySlice l (a - 1) b)) = true →
        (stripWS (pySlice l (a - 1) b)).all Char.isDigit = true →
        slice_num l a b = .ok (parseDigits (stripWS (pySlice l (a - 1) b)) : Int)) ∧
      ((stripWS (pySlice l (a - 1) b)).isEmpty = false →
        (stripWS (pySlice l (a - 1) b)).getLast? ≠ some '-' →
        isdigitStr (stripWS (pySlice l (a - 1) b)) = false →
        slice_num l a b = .ok 0) ∧
      ((stripWS (pySlice l (a - 1) b)).getLast? = some '-' →
        isdigitStr (stripWS (stripWS (pySlice l (a - 1) b)).dropLast) = true →
        (stripWS (stripWS (pySlice l (a - 1) b)).dropLast).all Char.isDigit = false →
        slice_num l a b = .error ()) ∧
      (isdigitStr (stripWS (pySlice l (a - 1) b)) = true →
        (stripWS (pySlice l (a - 1) b)).all Char.isDigit = false →
        slice_num l a b = .error ()) := by
  intro l a b
  have hs : slice_num l a b = decodeNumField (stripWS (pySlice l (a - 1) b)) := rfl
  have hd := decodeNumField_cases (stripWS (pySlice l (a - 1) b))
  rw [hs]
  exact hd

/-- C6 witness: a concrete trailing-minus field decodes to its negated
magnitude. -/
theorem c6_witness : slice_num ("  1234-  ".toList) 1 9 = Except.ok (-1234) :=
  (c6_decode_integer_spec ("  1234-  ".toList) 1 9).2.1 (by decide) (by decide)
    (by decide)

/-- C5 counterexample: for a customer whose observed sequence is
`01, 03, 03, 04` the sequence report does not assign `VALID` — the
source regex requires the first cycle to start with `02`. -/
theorem c5_counterexample :
    (generate_sequence_results
        [(['C', '1'], [RT.r01, RT.r03, RT.r03, RT.r04])]).map
      (fun r => r.status) ≠ ["VALID"] := by decide

/-- C5 amended: the sequence `01, 03, 03, 04` is assigned `INVALID`,
because a block starting with `03` instead of `02` is only permitted from
the second cycle onward; a sequence such as `01, 02, 04, 03, 04`, whose
`03`-opened block is its second cycle, is assigned `VALID`. -/
theorem c5_amended_first_cycle_must_be_02 :
    (generate_sequence_results
        [(['C', '1'], [RT.r01, RT.r03, RT.r03, RT.r04])]).map
      (fun r => r.status) = ["INVALID"] ∧
    (generate_sequence_results
        [(['C', '2'], [RT.r01, RT.r02, RT.r04, RT.r03, RT.r04])]).map
      (fun r => r.status) = ["VALID"] := by decide

theorem foldl_dfa_dead : ∀ t : List RT, t.foldl dfaStep .dead = .dead := by
  intro t
  induction t with
  | nil => rfl
  | cons a t ih =>
    rw [List.foldl_cons]
    cases a <;> exact ih

theorem acc_s2_iff : ∀ t : List RT, (t.foldl dfaStep .s2 = .s3) ↔
    ∃ n r, t = List.replicate n RT.r03 ++ RT.r04 :: r ∧
      r.foldl dfaStep .s3 = .s3 := by
  intro t
  induction t with
  | nil =>
    constructor
    · intro h
      exact absurd h (by decide)
    · rintro ⟨n, r, heq, hr⟩
      cases n <;> simp [List.replicate_succ] at heq
  | cons a t ih =>
    cases a with
    | r01 =>
      constructor
      · intro h
        rw [List.foldl_cons, show dfaStep .s2 .r01 = .dead from rfl,
          foldl_dfa_dead] at h
        exact absurd h (by decide)
      · rintro ⟨n, r, heq, hr⟩
        cases n <;> simp [List.replicate_succ] at heq
    | r02 =>
      constructor
      · intro h
        rw [List.foldl_cons, show dfaStep .s2 .r02 = .dead from rfl,
          foldl_dfa_dead] at h
        exact absurd h (by decide)
      · rintro ⟨n, r, heq, hr⟩
        cases n <;> simp [List.replicate_succ] at heq
    | r03 =>
      rw [List.foldl_cons, show dfaStep .s2 .r03 = .s2 from rfl, ih]
      constructor
      · rintro ⟨n, r, heq, hr⟩
        exact ⟨n + 1, r, by simp [List.replicate_succ, heq], hr⟩
      · rintro ⟨n, r, heq, hr⟩
        cases n with
        | zero => simp [List.replicate_succ] at heq
        | succ n =>
          simp only [List.replicate_succ, List.cons_append,
            List.cons.injEq] at heq
          exact ⟨n, r, heq.2, hr⟩
    | r04 =>
      rw [List.foldl_cons, show dfaStep .s2 .r04 = .s3 from rfl]
      constructor
      · intro h
        exact ⟨0, t, by simp, h⟩
      · rintro ⟨n, r, heq, hr⟩
        cases n with
        | zero =>
          simp only [List.replicate, List.nil_append, List.cons.injEq] at heq
          rw [heq.2]
          exact hr
        | succ n => simp [List.replicate_succ] at heq

theorem acc_s3_iff_aux : ∀ (N : Nat) (t : List RT), t.length ≤ N →
    ((t.foldl dfaStep .s3 = .s3) ↔
      ∃ cs : List (List RT), (∀ x ∈ cs, IsLaterCycle x) ∧ t = cs.flatten) := by
  intro N
  induction N with
  | zero =>
    intro t ht
    have hte : t = [] := List.length_eq_zero.mp (Nat.le_zero.mp ht)
    subst hte
    constructor
    · intro _
      exact ⟨[], by simp, rfl⟩
    · intro _
      rfl
  | succ N ih =>
    intro t ht
    cases t with
    | nil =>
      constructor
      · intro _
        exact ⟨[], by simp, rfl⟩
      · intro _
        rfl
    | cons a t' =>
      cases a with
      | r02 =>
        rw [List.foldl_cons, show dfaStep .s3 .r02 = .s2 from rfl, acc_s2_iff]
        constructor
        · rintro ⟨n, r, heq, hr⟩
          have hrlen : r.length ≤ N := by
            have hlen := congrArg List.length heq
            simp only [List.length_append, List.length_cons,
              List.length_replicate] at hlen
            simp only [List.length_cons] at ht
            omega
          obtain ⟨cs, hcs, hre⟩ := (ih r hrlen).mp hr
          refine ⟨(RT.r02 :: (List.replicate n RT.r03 ++ [RT.r04])) :: cs,
            ?_, ?_⟩
          · intro x hx
            rcases List.mem_cons.mp hx with rfl | hx2
            · exact ⟨RT.r02, n, Or.inl rfl, rfl⟩
            · exact hcs x hx2
          · simp [heq, hre]
        · rintro ⟨cs, hcs, hte⟩
          cases cs with
          | nil => simp at hte
          | cons c cs' =>
            obtain ⟨sym, n, hsym, hc⟩ := hcs c (List.mem_cons_self c cs')
            subst hc
            simp only [List.flatten_cons, List.cons_append,
              List.cons.injEq] at hte
            obtain ⟨hsym2, hte2⟩ := hte
            have hflen : cs'.flatten.length ≤ N := by
              have hlen := congrArg List.length hte2
              simp only [List.length_append, List.length_cons,
                List.length_replicate, List.length_singleton] at hlen
              simp only [List.length_cons] at ht
              omega
            refine ⟨n, cs'.flatten, ?_, ?_⟩
            · rw [hte2]
              simp
            · exact (ih cs'.flatten hflen).mpr
                ⟨cs', fun x hx => hcs x (List.mem_cons_of_mem _ hx), rfl⟩
      | r03 =>
        rw [List.foldl_cons, show dfaStep .s3 .r03 = .s2 from rfl, acc_s2_iff]
        constructor
        · rintro ⟨n, r, heq, hr⟩
          have hrlen : r.length ≤ N := by
            have hlen := congrArg List.length heq
            simp only [List.length_append, List.length_cons,
              List.length_replicate] at hlen
            simp only [List.length_cons] at ht
            omega
          obtain ⟨cs, hcs, hre⟩ := (ih r hrlen).mp hr
          refine ⟨(RT.r03 :: (List.replicate n RT.r03 ++ [RT.r04])) :: cs,
            ?_, ?_⟩
          · intro x hx
            rcases List.mem_cons.mp hx with rfl | hx2
            · exact ⟨RT.r03, n, Or.inr rfl, rfl⟩
            · exact hcs x hx2
          · simp [heq, hre]
        · rintro ⟨cs, hcs, hte⟩
          cases cs with
          | nil => simp at hte
          | cons c cs' =>
            obtain ⟨sym, n, hsym, hc⟩ := hcs c (List.mem_cons_self c cs')
            subst hc
            simp only [List.flatten_cons, List.cons_append,
              List.cons.injEq] at hte
            obtain ⟨hsym2, hte2⟩ := hte
            have hflen : cs'.flatten.length ≤ N := by
              have hlen := congrArg List.length hte2
              simp only [List.length_append, List.length_cons,
                List.length_replicate, List.length_singleton] at hlen
              simp only [List.length_cons] at ht
              omega
            refine ⟨n, cs'.flatten, ?_, ?_⟩
            · rw [hte2]
              simp
            · exact (ih cs'.flatten hflen).mpr
                ⟨cs', fun x hx => hcs x (List.mem_cons_of_mem _ hx), rfl⟩
      | r01 =>
        constructor
        · intro h
          rw [List.foldl_cons, show dfaStep .s3 .r01 = .dead from rfl,
            foldl_dfa_dead] at h
          exact absurd h (by decide)
        · rintro ⟨cs, hcs, hte⟩
          cases cs with
          | nil => simp at hte
          | cons c cs' =>
            obtain ⟨sym, n, hsym, hc⟩ := hcs c (List.mem_cons_self c cs')
            subst hc
            simp only [List.flatten_cons, List.cons_append,
              List.cons.injEq] at hte
            rcases hsym with rfl | rfl
            · exact absurd hte.1 (by decide)
            · exact absurd hte.1 (by decide)
      | r04 =>
        constructor
        · intro h
          rw [List.foldl_cons, show dfaStep .s3 .r04 = .dead from rfl,
            foldl_dfa_dead] at h
          exact absurd h (by decide)
        · rintro ⟨cs, hcs, hte⟩
          cases cs with
          | nil => simp at hte
          | cons c cs' =>
            obtain ⟨sym, n, hsym, hc⟩ := hcs c (List.mem_cons_self c cs')
            subst hc
            simp only [List.flatten_cons, List.cons_append,
              List.cons.injEq] at hte
            rcases hsym with rfl | rfl
            · exact absurd hte.1 (by decide)
            · exact absurd hte.1 (by decide)

theorem acc_s3_iff (t : List RT) : (t.foldl dfaStep .s3 = .s3) ↔
    ∃ cs : List (List RT), (∀ x ∈ cs, IsLaterCycle x) ∧ t = cs.flatten :=
  acc_s3_iff_aux t.length t le_rfl

theorem seqValid_iff_SeqLang (l : List RT) : seqValid l = true ↔ SeqLang l := by
  have hval : seqValid l = true ↔ (l.foldl dfaStep .s0 = .s3) := by
    simp [seqValid]
  rw [hval]
  cases l with
  | nil =>
    constructor
    · intro h
      exact absurd h (by decide)
    · rintro ⟨c, cs, hc, hcs, heq⟩
      simp at heq
  | cons a l' =>
    cases a with
    | r01 =>
      cases l' with
      | nil =>
        constructor
        · intro h
          exact absurd h (by decide)
        · rintro ⟨c, cs, ⟨n, hcf⟩, hcs, heq⟩
          subst hcf
          simp at heq
      | cons b l'' =>
        cases b with
        | r02 =>
          have hstep : (RT.r01 :: RT.r02 :: l'').foldl dfaStep .s0 =
              l''.foldl dfaStep .s2 := rfl
          rw [hstep, acc_s2_iff]
          constructor
          · rintro ⟨n, r, heq, hr⟩
            obtain ⟨cs, hcs, hre⟩ := (acc_s3_iff r).mp hr
            refine ⟨RT.r02 :: (List.replicate n RT.r03 ++ [RT.r04]), cs,
              ⟨n, rfl⟩, hcs, ?_⟩
            simp [heq, hre]
          · rintro ⟨c, cs, ⟨n, hcf⟩, hcs, heq⟩
            subst hcf
            simp only [List.cons_append, List.append_assoc,
              List.cons.injEq, List.singleton_append] at heq
            refine ⟨n, cs.flatten, heq.2.2, ?_⟩
            exact (acc_s3_iff _).mpr ⟨cs, hcs, rfl⟩
        | r01 =>
          constructor
          · intro h
            rw [show (RT.r01 :: RT.r01 :: l'').foldl dfaStep .s0 =
                l''.foldl dfaStep .dead from rfl, foldl_dfa_dead] at h
            exact absurd h (by decide)
          · rintro ⟨c, cs, ⟨n, hcf⟩, hcs, heq⟩
            subst hcf
            simp only [List.cons_append, List.cons.injEq] at heq
            exact absurd heq.2.1 (by decide)
        | r03 =>
          constructor
          · intro h
            rw [show (RT.r01 :: RT.r03 :: l'').foldl dfaStep .s0 =
                l''.foldl dfaStep .dead from rfl, foldl_dfa_dead] at h
            exact absurd h (by decide)
          · rintro ⟨c, cs, ⟨n, hcf⟩, hcs, heq⟩
            subst hcf
            simp only [List.cons_append, List.cons.injEq] at heq
            exact absurd heq.2.1 (by decide)
        | r04 =>
          constructor
          · intro h
            rw [show (RT.r01 :: RT.r04 :: l'').foldl dfaStep .s0 =
                l''.foldl dfaStep .dead from rfl, foldl_dfa_dead] at h
            exact absurd h (by decide)
          · rintro ⟨c, cs, ⟨n, hcf⟩, hcs, heq⟩
            subst hcf
            simp only [List.cons_append, List.cons.injEq] at heq
            exact absurd heq.2.1 (by decide)
    | r02 =>
      constructor
      · intro h
        rw [show (RT.r02 :: l').foldl dfaStep .s0 =
            l'.foldl dfaStep .dead from rfl, foldl_dfa_dead] at h
        exact absurd h (by decide)
      · rintro ⟨c, cs, hc, hcs, heq⟩
        simp only [List.cons.injEq] at heq
        exact absurd heq.1 (by decide)
    | r03 =>
      constructor
      · intro h
        rw [show (RT.r03 :: l').foldl dfaStep .s0 =
            l'.foldl dfaStep .dead from rfl, foldl_dfa_dead] at h
        exact absurd h (by decide)
      · rintro ⟨c, cs, hc, hcs, heq⟩
        simp only [List.cons.injEq] at heq
        exact absurd heq.1 (by decide)
    | r04 =>
      constructor
      · intro h
        rw [show (RT.r04 :: l').foldl dfaStep .s0 =
            l'.foldl dfaStep .dead from rfl, foldl_dfa_dead] at h
        exact absurd h (by decide)
      · rintro ⟨c, cs, hc, hcs, heq⟩
        simp only [List.cons.injEq] at heq
        exact absurd heq.1 (by decide)

open Classical in
/-- C4: for every customer entry, the sequence report status is `VALID`
exactly when the ordered record-type tokens, in file order, lie in the
anchored grammar `01 (02 (03)* 04) ((02|03) (03)* 04)*`: the sequence
starts with `01`, the first cycle is `02` followed by zero or more `03`
then `04`, and every later cycle starts with `02` or `03`, contains zero
or more further `03`s, and terminates in `04`; otherwise the status is
`INVALID`. -/
theorem c4_sequence_status_iff_grammar :
    ∀ entries : List (List Char × List RT),
      generate_sequence_results entries =
        entries.map (fun p =>
          ⟨p.1, p.2, if SeqLang p.2 then "VALID" else "INVALID"⟩) := by
  intro entries
  unfold generate_sequence_results
  apply List.map_congr_left
  intro p _
  by_cases h : SeqLang p.2
  · rw [if_pos ((seqValid_iff_SeqLang p.2).mpr h), if_pos h]
  · rw [if_neg (fun hc => h ((seqValid_iff_SeqLang p.2).mp hc)), if_neg h]

theorem handleCustomer_header (st : PState) (l : List Char) :
    (handleCustomer st l).header = st.header := by
  unfold handleCustomer
  dsimp only
  split <;> rfl

theorem handleCustomer_validations (st : PState) (l : List Char) :
    (handleCustomer st l).validations = st.validations := by
  unfold handleCustomer
  dsimp only
  split <;> rfl

theorem handleCustomer_stats (st : PState) (l : List Char) :
    (handleCustomer st l).stats = st.stats := by
  unfold handleCustomer
  dsimp only
  split <;> rfl

theorem handleTrailer_header (st : PState) :
    (handleTrailer st).header = st.header := by
  unfold handleTrailer
  split <;> first | rfl | (split <;> rfl)

theorem handleTrailer_validations (st : PState) :
    (handleTrailer st).validations = st.validations := by
  unfold handleTrailer
  split <;> first | rfl | (split <;> rfl)

theorem handleTrailer_stats (st : PState) :
    (handleTrailer st).stats = st.stats := by
  unfold handleTrailer
  split <;> first | rfl | (split <;> rfl)

theorem applyHeader_header (cfg : Config) (st : PState) (l : List Char)
    (hdr : Header) (tot : Int) :
    (applyHeader cfg st l hdr tot).header = some hdr := by
  unfold applyHeader
  dsimp only
  split <;> split <;> rfl

theorem applyHeader_stats (cfg : Config) (st : PState) (l : List Char)
    (hdr : Header) (tot : Int) :
    (applyHeader cfg st l hdr tot).stats = (fun _ => 0) := by
  unfold applyHeader
  dsimp only
  split <;> split <;> rfl

theorem applyHeader_validations (cfg : Config) (st : PState) (l : List Char)
    (hdr : Header) (tot : Int) :
    (applyHeader cfg st l hdr tot).validations =
      st.validations ++ (match st.header with
        | some h => validate_block h st.stats cfg.card_type
        | none => []) := by
  unfold applyHeader
  cases st.header with
  | none =>
    dsimp only
    repeat' split
    all_goals simp
  | some h =>
    dsimp only
    repeat' split
    all_goals rfl

theorem detailFiltered_proj (cfg : Config) (st : PState) (l : List Char)
    (pd : PyDate) :
    (detailFiltered cfg st l pd).header = st.header ∧
    (detailFiltered cfg st l pd).validations = st.validations ∧
    (detailFiltered cfg st l pd).stats = st.stats ∧
    (detailFiltered cfg st l pd).customer = st.customer ∧
    (detailFiltered cfg st l pd).card = st.card := by
  unfold detailFiltered
  split <;> exact ⟨rfl, rfl, rfl, rfl, rfl⟩

theorem detailTracker_proj (st : PState) (l : List Char) (pd : PyDate)
    (amt : Int) :
    (detailTracker st l pd amt).header = st.header ∧
    (detailTracker st l pd amt).validations = st.validations ∧
    (detailTracker st l pd amt).stats = st.stats ∧
    (detailTracker st l pd amt).customer = st.customer ∧
    (detailTracker st l pd amt).card = st.card :=
  ⟨rfl, rfl, rfl, rfl, rfl⟩

theorem detailCardTx_proj (st : PState) (l : List Char) (amt : Int) :
    (detailCardTx st l amt).header = st.header ∧
    (detailCardTx st l amt).validations = st.validations ∧
    (detailCardTx st l amt).stats = st.stats ∧
    (detailCardTx st l amt).customer = st.customer ∧
    (detailCardTx st l amt).card = st.card := by
  unfold detailCardTx
  split
  · split <;> exact ⟨rfl, rfl, rfl, rfl, rfl⟩
  · exact ⟨rfl, rfl, rfl, rfl, rfl⟩

theorem detailZero_proj (st : PState) (l : List Char) (pd : PyDate)
    (amt : Int) :
    (detailZero st l pd amt).header = st.header ∧
    (detailZero st l pd amt).validations = st.validations ∧
    (detailZero st l pd amt).stats = st.stats ∧
    (detailZero st l pd amt).customer = st.customer ∧
    (detailZero st l pd amt).card = st.card := by
  unfold detailZero
  split <;> exact ⟨rfl, rfl, rfl, rfl, rfl⟩

theorem detailStats_proj (st : PState) (l : List Char) (amt : Int) :
    (detailStats st l amt).header = st.header ∧
    (detailStats st l amt).validations = st.validations ∧
    (detailStats st l amt).customer = st.customer ∧
    (detailStats st l amt).card = st.card := by
  unfold detailStats
  split <;> exact ⟨rfl, rfl, rfl, rfl⟩

theorem detailStats_stats (st : PState) (l : List Char) (amt : Int) :
    (detailStats st l amt).stats =
      (match st.header with
       | some _ => Function.update st.stats (slice_str l 163 164)
           (st.stats (slice_str l 163 164) + amt)
       | none => st.stats) := by
  unfold detailStats
  cases st.header <;> rfl

theorem detailSeq_proj (st : PState) :
    (detailSeq st).header = st.header ∧
    (detailSeq st).validations = st.validations ∧
    (detailSeq st).stats = st.stats := by
  unfold detailSeq
  split
  · split <;> exact ⟨rfl, rfl, rfl⟩
  · exact ⟨rfl, rfl, rfl⟩

theorem applyDetail_header (cfg : Config) (st : PState) (l : List Char)
    (pd : PyDate) (amt : Int) :
    (applyDetail cfg st l pd amt).header = st.header := by
  unfold applyDetail
  rw [(detailSeq_proj _).1, (detailStats_proj _ _ _).1,
    (detailZero_proj _ _ _ _).1, (detailCardTx_proj _ _ _).1,
    (detailTracker_proj _ _ _ _).1, (detailFiltered_proj _ _ _ _).1]

theorem applyDetail_validations (cfg : Config) (st : PState) (l : List Char)
    (pd : PyDate) (amt : Int) :
    (applyDetail cfg st l pd amt).validations = st.validations := by
  unfold applyDetail
  rw [(detailSeq_proj _).2.1, (detailStats_proj _ _ _).2.1,
    (detailZero_proj _ _ _ _).2.1, (detailCardTx_proj _ _ _).2.1,
    (detailTracker_proj _ _ _ _).2.1, (detailFiltered_proj _ _ _ _).2.1]

theorem applyDetail_stats (cfg : Config) (st : PState) (l : List Char)
    (pd : PyDate) (amt : Int) :
    (applyDetail cfg st l pd amt).stats =
      (match st.header with
       | some _ => Function.update st.stats (slice_str l 163 164)
           (st.stats (slice_str l 163 164) + amt)
       | none => st.stats) := by
  unfold applyDetail
  rw [(detailSeq_proj _).2.2, detailStats_stats]
  rw [(detailZero_proj _ _ _ _).1, (detailCardTx_proj _ _ _).1,
    (detailTracker_proj _ _ _ _).1, (detailFiltered_proj _ _ _ _).1]
  rw [(detailZero_proj _ _ _ _).2.2.1, (detailCardTx_proj _ _ _).2.2.1,
    (detailTracker_proj _ _ _ _).2.2.1, (detailFiltered_proj _ _ _ _).2.2.1]

theorem validate_block_length (h : Header) (s : List Char → Int)
    (ct : String) : (validate_block h s ct).length = 3 := rfl

theorem vmeasure_customerStep (st : PState) (l : List Char) :
    vmeasure (if l.take 2 = t01 then handleCustomer st l else st) =
      vmeasure st := by
  split
  · unfold vmeasure
    rw [handleCustomer_header, handleCustomer_validations]
  · rfl

theorem vmeasure_applyHeader (cfg : Config) (st : PState) (l : List Char)
    (hdr : Header) (tot : Int) :
    vmeasure (applyHeader cfg st l hdr tot) = vmeasure st + 3 := by
  unfold vmeasure
  rw [applyHeader_header, applyHeader_validations]
  cases st.header with
  | none => simp
  | some h => simp [List.length_append, validate_block_length]

theorem vmeasure_applyDetail (cfg : Config) (st : PState) (l : List Char)
    (pd : PyDate) (amt : Int) :
    vmeasure (applyDetail cfg st l pd amt) = vmeasure st := by
  unfold vmeasure
  rw [applyDetail_header, applyDetail_validations]

theorem vmeasure_handleTrailer (st : PState) :
    vmeasure (handleTrailer st) = vmeasure st := by
  unfold vmeasure
  rw [handleTrailer_header, handleTrailer_validations]

theorem stepLine_vmeasure (cfg : Config) (st : PState) (l : List Char)
    (st' : PState) (h : stepLine cfg st l = .ok st') :
    vmeasure st' = vmeasure st + (if l.take 2 = cfg.target then 3 else 0) := by
  unfold stepLine at h
  dsimp only at h
  by_cases h1 : l.take 2 = cfg.target
  · rw [if_pos h1] at h
    unfold handleHeader at h
    revert h
    cases headerOfLine l with
    | error e =>
      cases slice_num l 354 367 <;> intro h <;> cases h
    | ok hdr =>
      cases slice_num l 354 367 with
      | error e =>
        intro h
        cases h
      | ok tot =>
        intro h
        have h2 := Except.ok.inj h
        rw [← h2, if_pos h1, vmeasure_applyHeader, vmeasure_customerStep]
  · rw [if_neg h1] at h
    by_cases h3 : l.take 2 = t03
    · rw [if_pos h3] at h
      cases hd : to_date (extract_posting_date l) with
      | none =>
        rw [hd] at h
        cases h
      | some pd =>
        rw [hd] at h
        unfold handleDetail at h
        revert h
        cases slice_num l 149 162 with
        | error e =>
          intro h
          cases h
        | ok amt =>
          intro h
          have h2 := Except.ok.inj h
          rw [← h2, if_neg h1, vmeasure_applyDetail, vmeasure_customerStep,
            Nat.add_zero]
    · rw [if_neg h3] at h
      by_cases h4 : l.take 2 = t04
      · rw [if_pos h4] at h
        have h2 := Except.ok.inj h
        rw [← h2, if_neg h1, vmeasure_handleTrailer, vmeasure_customerStep,
          Nat.add_zero]
      · rw [if_neg h4] at h
        have h2 := Except.ok.inj h
        rw [← h2, if_neg h1, vmeasure_customerStep, Nat.add_zero]

theorem runLines_vmeasure (cfg : Config) :
    ∀ (lines : List (List Char)) (st st' : PState),
      List.foldlM (stepLine cfg) st lines = .ok st' →
      vmeasure st' = vmeasure st + 3 * headerCount cfg.target lines := by
  intro lines
  induction lines with
  | nil =>
    intro st st' h
    simp only [List.foldlM_nil] at h
    have h2 : st = st' := Except.ok.inj h
    rw [← h2]
    simp [headerCount]
  | cons l ls ih =>
    intro st st' h
    rw [List.foldlM_cons] at h
    cases hs : stepLine cfg st l with
    | error e =>
      rw [hs] at h
      have h' : (Except.error e : Except Unit PState) = .ok st' := h
      cases h'
    | ok st1 =>
      rw [hs] at h
      have h' : List.foldlM (stepLine cfg) st1 ls = .ok st' := h
      have hv := ih st1 st' h'
      have hstep := stepLine_vmeasure cfg st l st1 hs
      rw [hv, hstep]
      unfold headerCount
      rw [List.countP_cons]
      by_cases hT : l.take 2 = cfg.target <;> simp [hT]
      all_goals omega

theorem finalize_validations_length (cfg : Config) (st : PState) :
    (finalize cfg st).validations.length = vmeasure st := by
  unfold finalize vmeasure
  cases st.header with
  | none => simp
  | some h => simp [List.length_append, validate_block_length]

/-- C3: in every successful run, each record whose type code equals the
configured target header type opens one card block, every opened block is
validated exactly once — at the next target header or at end of file — so
the validations list holds exactly three rows per target-header record and
a partially-seen trailing block is never dropped. -/
theorem c3_blocks_validated_exactly_once (cfg : Config)
    (lines : List (List Char)) (r : ValidationResult)
    (h : process_file cfg lines = .ok r) :
    r.validations.length = 3 * headerCount cfg.target lines := by
  unfold process_file at h
  cases hrun : runLines cfg lines with
  | error e =>
    rw [hrun] at h
    cases h
  | ok st =>
    rw [hrun] at h
    simp only [Except.map] at h
    have h2 := Except.ok.inj h
    have hval : r.validations = (finalize cfg st).validations := by
      rw [← h2]
    rw [hval, finalize_validations_length]
    have h3 := runLines_vmeasure cfg lines initState st hrun
    simpa [vmeasure, initState] using h3

/-- C3 witness: a one-line file whose single record is a bare `"02"`
header yields exactly three validation rows. -/
theorem c3_witness :
    (⟨[], [⟨[], "NEW_BAL", 0, 0, "PASS"⟩, ⟨[], "AVL_CR_LIMIT", 0, 0, "PASS"⟩,
        ⟨[], "PT_SH_MIN_PAYMENT", 0, 0, "PASS"⟩], [], [], [],
      [⟨[], 0, "No", 0, "VALID"⟩], []⟩ : ValidationResult).validations.length =
      3 * headerCount cfgR0.target [t02] :=
  c3_blocks_validated_exactly_once cfgR0 [t02] _ (by decide)

theorem dv_of_isDigit (c : Char) (h : c.isDigit = true) :
    dv c = some (c.toNat - 48) := by
  simp [dv, h]

theorem daysInMonth_le_31 (y m : Nat) : daysInMonth y m ≤ 31 := by
  unfold daysInMonth
  split
  · split <;> omega
  · split <;> omega

theorem monthAlts_head (c4 c5 : Char) (rest : List Char)
    (h4 : c4.isDigit = true) (h5 : c5.isDigit = true)
    (hm1 : 1 ≤ 10 * (c4.toNat - 48) + (c5.toNat - 48))
    (hm2 : 10 * (c4.toNat - 48) + (c5.toNat - 48) ≤ 12) :
    ∃ junk, monthAlts (c4 :: c5 :: rest) =
      (10 * (c4.toNat - 48) + (c5.toNat - 48), rest) :: junk := by
  have hdv4 : dv c4 = some (c4.toNat - 48) := dv_of_isDigit c4 h4
  have hdv5 : dv c5 = some (c5.toNat - 48) := dv_of_isDigit c5 h5
  set a := c4.toNat - 48 with ha
  set b := c5.toNat - 48 with hb
  have haU : a ≤ 1 := by omega
  interval_cases a
  · have hb1 : 1 ≤ b := by omega
    refine ⟨[], ?_⟩
    unfold monthAlts
    dsimp only
    rw [hdv4, hdv5]
    simp [hb1]
  · have hb2 : b ≤ 2 := by omega
    refine ⟨[(1, c5 :: rest)], ?_⟩
    unfold monthAlts
    dsimp only
    rw [hdv4, hdv5]
    simp [hb2]

theorem dayAlts_head (c6 c7 : Char) (rest : List Char)
    (h6 : c6.isDigit = true) (h7 : c7.isDigit = true)
    (hd1 : 1 ≤ 10 * (c6.toNat - 48) + (c7.toNat - 48))
    (hd2 : 10 * (c6.toNat - 48) + (c7.toNat - 48) ≤ 31) :
    ∃ junk, dayAlts (c6 :: c7 :: rest) =
      (10 * (c6.toNat - 48) + (c7.toNat - 48), rest) :: junk := by
  have hdv6 : dv c6 = some (c6.toNat - 48) := dv_of_isDigit c6 h6
  have hdv7 : dv c7 = some (c7.toNat - 48) := dv_of_isDigit c7 h7
  have hne : ¬ (c6 = ' ') := by
    intro he
    rw [he] at h6
    exact absurd h6 (by decide)
  set a := c6.toNat - 48 with ha
  set b := c7.toNat - 48 with hb
  have haU : a ≤ 3 := by omega
  interval_cases a
  · have hb1 : 1 ≤ b := by omega
    refine ⟨[], ?_⟩
    unfold dayAlts
    dsimp only
    rw [hdv6, hdv7]
    simp [hb1, hne]
  · refine ⟨[(1, c7 :: rest)], ?_⟩
    unfold dayAlts
    dsimp only
    rw [hdv6, hdv7]
    simp [hne]
  · refine ⟨[(2, c7 :: rest)], ?_⟩
    unfold dayAlts
    dsimp only
    rw [hdv6, hdv7]
    simp [hne]
  · have hb1 : b ≤ 1 := by omega
    refine ⟨[(3, c7 :: rest)], ?_⟩
    unfold dayAlts
    dsimp only
    rw [hdv6, hdv7]
    simp [hb1, hne]

theorem parseDigits_two (c4 c5 : Char) :
    parseDigits [c4, c5] = 10 * (c4.toNat - 48) + (c5.toNat - 48) := by
  unfold parseDigits
  simp only [List.foldl_cons, List.foldl_nil]
  omega

theorem parseDigits_four (c0 c1 c2 c3 : Char) :
    parseDigits [c0, c1, c2, c3] =
      ((((c0.toNat - 48) * 10 + (c1.toNat - 48)) * 10 + (c2.toNat - 48)) * 10 +
        (c3.toNat - 48)) := by
  unfold parseDigits
  simp only [List.foldl_cons, List.foldl_nil]
  omega

theorem to_date_valid8 (c0 c1 c2 c3 c4 c5 c6 c7 : Char)
    (h0 : c0.isDigit = true) (h1 : c1.isDigit = true)
    (h2 : c2.isDigit = true) (h3 : c3.isDigit = true)
    (h4 : c4.isDigit = true) (h5 : c5.isDigit = true)
    (h6 : c6.isDigit = true) (h7 : c7.isDigit = true)
    (hy : 1 ≤ parseDigits [c0, c1, c2, c3])
    (hm1 : 1 ≤ parseDigits [c4, c5])
    (hm2 : parseDigits [c4, c5] ≤ 12)
    (hd1 : 1 ≤ parseDigits [c6, c7])
    (hd2 : parseDigits [c6, c7] ≤
      daysInMonth (parseDigits [c0, c1, c2, c3]) (parseDigits [c4, c5])) :
    to_date [c0, c1, c2, c3, c4, c5, c6, c7] =
      some ⟨parseDigits [c0, c1, c2, c3], parseDigits [c4, c5],
        parseDigits [c6, c7]⟩ := by
  have hp2 := parseDigits_two c4 c5
  have hp2d := parseDigits_two c6 c7
  have hp4 := parseDigits_four c0 c1 c2 c3
  have hd31 : parseDigits [c6, c7] ≤ 31 :=
    le_trans hd2 (daysInMonth_le_31 _ _)
  obtain ⟨j1, hmA⟩ := monthAlts_head c4 c5 [c6, c7] h4 h5 (by omega) (by omega)
  obtain ⟨j2, hdA⟩ := dayAlts_head c6 c7 [] h6 h7 (by omega) (by omega)
  unfold to_date
  dsimp only
  rw [dv_of_isDigit c0 h0, dv_of_isDigit c1 h1, dv_of_isDigit c2 h2,
    dv_of_isDigit c3 h3]
  dsimp only
  rw [hmA, List.findSome?_cons, hdA]
  dsimp only [List.head?_cons, Option.map]
  rw [if_pos]
  · simp only [Option.some.injEq, PyDate.mk.injEq]
    refine ⟨by omega, by omega, by omega⟩
  · refine ⟨rfl, by omega, ?_⟩
    have e1 : ((((c0.toNat - 48) * 10 + (c1.toNat - 48)) * 10 +
        (c2.toNat - 48)) * 10 + (c3.toNat - 48)) = parseDigits [c0, c1, c2, c3] := by
      omega
    have e2 : 10 * (c4.toNat - 48) + (c5.toNat - 48) = parseDigits [c4, c5] := by
      omega
    rw [e1, e2]
    omega

theorem stepLine_isOk (cfg : Config) (st : PState) (l : List Char) :
    (stepLine cfg st l).isOk = !lineAborts cfg l := by
  unfold stepLine lineAborts
  dsimp only
  by_cases h1 : l.take 2 = cfg.target
  · rw [if_pos h1, if_pos h1]
    unfold handleHeader
    cases headerOfLine l <;> cases slice_num l 354 367 <;> rfl
  · rw [if_neg h1, if_neg h1]
    by_cases h3 : l.take 2 = t03
    · rw [if_pos h3, if_pos h3]
      cases hd : to_date (extract_posting_date l) with
      | none => rfl
      | some pd =>
        unfold handleDetail
        cases slice_num l 149 162 <;> rfl
    · rw [if_neg h3, if_neg h3]
      by_cases h4 : l.take 2 = t04
      · rw [if_pos h4]
        rfl
      · rw [if_neg h4]
        rfl

theorem foldlM_isOk (cfg : Config) :
    ∀ (lines : List (List Char)) (st : PState),
      (List.foldlM (stepLine cfg) st lines).isOk =
        lines.all (fun l => !lineAborts cfg l) := by
  intro lines
  induction lines with
  | nil =>
    intro st
    rfl
  | cons l ls ih =>
    intro st
    rw [List.foldlM_cons, List.all_cons]
    cases hs : stepLine cfg st l with
    | error e =>
      have hab : lineAborts cfg l = true := by
        have hk := stepLine_isOk cfg st l
        rw [hs] at hk
        simpa using hk.symm
      rw [hab]
      rfl
    | ok st1 =>
      have hab : lineAborts cfg l = false := by
        have hk := stepLine_isOk cfg st l
        rw [hs] at hk
        simpa using hk.symm
      rw [hab]
      show (List.foldlM (stepLine cfg) st1 ls).isOk = _
      rw [ih st1]
      rfl

theorem process_file_isOk (cfg : Config) (lines : List (List Char)) :
    (process_file cfg lines).isOk = lines.all (fun l => !lineAborts cfg l) := by
  unfold process_file runLines
  rw [← foldlM_isOk cfg lines initState]
  cases hf : List.foldlM (stepLine cfg) initState lines <;> rfl

/-- C8 fails as stated: the concrete 7-character string `"1999011"` is
accepted by the date parser (as 1999-01-01), so an accepted input need not
consist of exactly 8 digits. -/
theorem c8_counterexample :
    to_date ("1999011".toList) = some ⟨1999, 1, 1⟩ ∧
      ("1999011".toList).length ≠ 8 := by decide

/-- C8 amended: the date parser accepts every string of exactly 8 digits
that encodes a valid calendar date (4-digit year at least 1, month 1-12,
day within the month), but acceptance does not imply exactly 8 digits —
CPython's `%m` and `%d` also match one-digit months and days, and `%d`
additionally a space followed by a nonzero digit, so strings such as
`"1999011"` and `"199901 1"` (both parsed as 1999-01-01) are accepted
too; and a run of the processor succeeds exactly when no line aborts,
where a `"03"` record aborts on an unparseable posting-date field or an
amount field raising `ValueError`, and a target-header record aborts on a
header numeric field or declared total payment raising `ValueError`. -/
theorem c8_date_parse_and_abort :
    (∀ c0 c1 c2 c3 c4 c5 c6 c7 : Char,
      c0.isDigit = true → c1.isDigit = true →
      c2.isDigit = true → c3.isDigit = true →
      c4.isDigit = true → c5.isDigit = true →
      c6.isDigit = true → c7.isDigit = true →
      1 ≤ parseDigits [c0, c1, c2, c3] →
      1 ≤ parseDigits [c4, c5] → parseDigits [c4, c5] ≤ 12 →
      1 ≤ parseDigits [c6, c7] →
      parseDigits [c6, c7] ≤
        daysInMonth (parseDigits [c0, c1, c2, c3]) (parseDigits [c4, c5]) →
      to_date [c0, c1, c2, c3, c4, c5, c6, c7] =
        some ⟨parseDigits [c0, c1, c2, c3], parseDigits [c4, c5],
          parseDigits [c6, c7]⟩) ∧
    (∀ (cfg : Config) (lines : List (List Char)),
      (process_file cfg lines).isOk =
        lines.all (fun l => !lineAborts cfg l)) ∧
    to_date ("199901 1".toList) = some ⟨1999, 1, 1⟩ :=
  ⟨to_date_valid8, process_file_isOk, by decide⟩

/-- C8 witness: the leap-day string `"20240229"` parses to 2024-02-29. -/
theorem c8_witness : to_date ("20240229".toList) = some ⟨2024, 2, 29⟩ :=
  c8_date_parse_and_abort.1 '2' '0' '2' '4' '0' '2' '2' '9'
    (by decide) (by decide) (by decide) (by decide) (by decide) (by decide)
    (by decide) (by decide) (by decide) (by decide) (by decide) (by decide)
    (by decide)

/-- C9: the two engines select the target header type differently per card
type — the streaming bridge always uses `"02"` while the class-based
validator uses `"02"` for `REGULAR` and `"01"` for `CORPORATE` — so for
every `REGULAR` run the two process identically (the same records open
blocks), while for `CORPORATE` there is a concrete input file containing
both a `"01"` and a `"02"` record on which the two produce different
validation rows. -/
theorem c9_target_selection_divergence :
    (∀ ct : String, bridge_target ct = t02) ∧
    validator_target "REGULAR" = bridge_target "REGULAR" ∧
    validator_target "CORPORATE" = t01 ∧
    bridge_target "CORPORATE" = t02 ∧
    (∀ (f u : PyDate) (lines : List (List Char)),
      process_file (validatorConfig "REGULAR" f u) lines =
        process_file (bridgeConfig "REGULAR" f u) lines) ∧
    (process_file corpValidatorCfg [corpLine01, corpLine02]).map
        (fun r => r.validations) ≠
      (process_file corpBridgeCfg [corpLine01, corpLine02]).map
        (fun r => r.validations) := by
  refine ⟨?_, by decide, by decide, by decide, ?_, by decide⟩
  · intro ct
    unfold bridge_target
    split <;> rfl
  · intro f u lines
    have hcfg : validatorConfig "REGULAR" f u = bridgeConfig "REGULAR" f u := by
      unfold validatorConfig bridgeConfig validator_target bridge_target
      norm_num
    rw [hcfg]

theorem validate_block_congr (h : Header) (s1 s2 : List Char → Int)
    (ct : String) (hDR : s1 keyDR = s2 keyDR) (hCR : s1 keyCR = s2 keyCR) :
    validate_block h s1 ct = validate_block h s2 ct := by
  unfold validate_block
  rw [hDR, hCR]

theorem pySlice_congr (l1 l2 : List Char) (n a b : Nat)
    (h : l1.take n = l2.take n) (hb : b ≤ n) :
    pySlice l1 a b = pySlice l2 a b := by
  have hg : ∀ j, j < n → l1[j]? = l2[j]? := by
    intro j hj
    have h2 := congrArg (fun t => t[j]?) h
    simpa [List.getElem?_take_of_lt hj] using h2
  apply List.ext_getElem?
  intro i
  unfold pySlice
  by_cases hi : i < b - a
  · rw [List.getElem?_take_of_lt hi, List.getElem?_take_of_lt hi,
      List.getElem?_drop, List.getElem?_drop]
    exact hg (a + i) (by omega)
  · rw [List.getElem?_eq_none, List.getElem?_eq_none]
    · exact le_trans (List.length_take_le _ _) (by omega)
    · exact le_trans (List.length_take_le _ _) (by omega)

theorem extract_posting_date_congr (l1 l2 : List Char)
    (h : l1.take 148 = l2.take 148) :
    extract_posting_date l1 = extract_posting_date l2 := by
  unfold extract_posting_date
  rw [pySlice_congr l1 l2 148 75 89 h (by omega)]

theorem slice_dir_congr (l1 l2 : List Char) (h : l1.drop 162 = l2.drop 162) :
    slice_str l1 163 164 = slice_str l2 163 164 := by
  show stripWS ((l1.drop 162).take 2) = stripWS ((l2.drop 162).take 2)
  rw [h]

theorem customerStep_StRel (s1 s2 : PState) (l : List Char)
    (h : StRel s1 s2) :
    StRel (if l.take 2 = t01 then handleCustomer s1 l else s1)
      (if l.take 2 = t01 then handleCustomer s2 l else s2) := by
  obtain ⟨hH, hDR, hCR, hV⟩ := h
  split
  · exact ⟨by rw [handleCustomer_header, handleCustomer_header, hH],
      by rw [handleCustomer_stats, handleCustomer_stats, hDR],
      by rw [handleCustomer_stats, handleCustomer_stats, hCR],
      by rw [handleCustomer_validations, handleCustomer_validations, hV]⟩
  · exact ⟨hH, hDR, hCR, hV⟩

theorem applyHeader_StRel (cfg : Config) (l : List Char) (hdr : Header)
    (tot : Int) (s1 s2 : PState) (h : StRel s1 s2) :
    StRel (applyHeader cfg s1 l hdr tot) (applyHeader cfg s2 l hdr tot) := by
  obtain ⟨hH, hDR, hCR, hV⟩ := h
  refine ⟨?_, ?_, ?_, ?_⟩
  · rw [applyHeader_header, applyHeader_header]
  · rw [applyHeader_stats, applyHeader_stats]
  · rw [applyHeader_stats, applyHeader_stats]
  · rw [applyHeader_validations, applyHeader_validations, hV, hH]
    cases s2.header with
    | none => rfl
    | some hh =>
      dsimp only
      rw [validate_block_congr hh s1.stats s2.stats _ hDR hCR]

theorem applyDetail_StRel_same (cfg : Config) (l : List Char) (pd : PyDate)
    (amt : Int) (s1 s2 : PState) (h : StRel s1 s2) :
    StRel (applyDetail cfg s1 l pd amt) (applyDetail cfg s2 l pd amt) := by
  obtain ⟨hH, hDR, hCR, hV⟩ := h
  refine ⟨?_, ?_, ?_, ?_⟩
  · rw [applyDetail_header, applyDetail_header, hH]
  · rw [applyDetail_stats, applyDetail_stats, hH]
    cases s2.header with
    | none => exact hDR
    | some hh =>
      dsimp only
      by_cases hdir : slice_str l 163 164 = keyDR
      · rw [← hdir, Function.update_same, Function.update_same, hdir, hDR]
      · rw [Function.update_noteq (fun he => hdir he.symm),
          Function.update_noteq (fun he => hdir he.symm), hDR]
  · rw [applyDetail_stats, applyDetail_stats, hH]
    cases s2.header with
    | none => exact hCR
    | some hh =>
      dsimp only
      by_cases hdir : slice_str l 163 164 = keyCR
      · rw [← hdir, Function.update_same, Function.update_same, hdir, hCR]
      · rw [Function.update_noteq (fun he => hdir he.symm),
          Function.update_noteq (fun he => hdir he.symm), hCR]
  · rw [applyDetail_validations, applyDetail_validations, hV]

theorem applyDetail_StRel_rel (cfg : Config) (l1 l2 : List Char)
    (pd : PyDate) (amt1 amt2 : Int) (s1 s2 : PState) (h : StRel s1 s2)
    (h162 : l1.drop 162 = l2.drop 162)
    (hdir1 : slice_str l1 163 164 ≠ keyDR)
    (hdir2 : slice_str l1 163 164 ≠ keyCR) :
    StRel (applyDetail cfg s1 l1 pd amt1) (applyDetail cfg s2 l2 pd amt2) := by
  obtain ⟨hH, hDR, hCR, hV⟩ := h
  have hd : slice_str l1 163 164 = slice_str l2 163 164 :=
    slice_dir_congr l1 l2 h162
  refine ⟨?_, ?_, ?_, ?_⟩
  · rw [applyDetail_header, applyDetail_header, hH]
  · rw [applyDetail_stats, applyDetail_stats, hH]
    cases s2.header with
    | none => exact hDR
    | some hh =>
      dsimp only
      rw [← hd, Function.update_noteq (fun he => hdir1 he.symm),
        Function.update_noteq (fun he => hdir1 he.symm), hDR]
  · rw [applyDetail_stats, applyDetail_stats, hH]
    cases s2.header with
    | none => exact hCR
    | some hh =>
      dsimp only
      rw [← hd, Function.update_noteq (fun he => hdir2 he.symm),
        Function.update_noteq (fun he => hdir2 he.symm), hCR]
  · rw [applyDetail_validations, applyDetail_validations, hV]

theorem handleTrailer_StRel (s1 s2 : PState) (h : StRel s1 s2) :
    StRel (handleTrailer s1) (handleTrailer s2) := by
  obtain ⟨hH, hDR, hCR, hV⟩ := h
  exact ⟨by rw [handleTrailer_header, handleTrailer_header, hH],
    by rw [handleTrailer_stats, handleTrailer_stats, hDR],
    by rw [handleTrailer_stats, handleTrailer_stats, hCR],
    by rw [handleTrailer_validations, handleTrailer_validations, hV]⟩

theorem stepLine_StRel (cfg : Config) (l1 l2 : List Char) (s1 s2 : PState)
    (htar : cfg.target ≠ t03) (hrel : StRel s1 s2) (hline : LineRel l1 l2) :
    (stepLine cfg s1 l1 = .error () ∧ stepLine cfg s2 l2 = .error ()) ∨
    (∃ u1 u2, stepLine cfg s1 l1 = .ok u1 ∧ stepLine cfg s2 l2 = .ok u2 ∧
      StRel u1 u2) := by
  rcases hline with rfl | ⟨ht1, ht2, h148, h162, hok, hdir1, hdir2⟩
  · have hrelm := customerStep_StRel s1 s2 l1 hrel
    unfold stepLine
    dsimp only
    by_cases h1 : l1.take 2 = cfg.target
    · rw [if_pos h1, if_pos h1]
      unfold handleHeader
      cases headerOfLine l1 with
      | error e =>
        cases slice_num l1 354 367 <;> exact Or.inl ⟨rfl, rfl⟩
      | ok hdr =>
        cases slice_num l1 354 367 with
        | error e => exact Or.inl ⟨rfl, rfl⟩
        | ok tot =>
          exact Or.inr ⟨_, _, rfl, rfl,
            applyHeader_StRel cfg l1 hdr tot _ _ hrelm⟩
    · rw [if_neg h1, if_neg h1]
      by_cases h3 : l1.take 2 = t03
      · rw [if_pos h3, if_pos h3]
        cases hd : to_date (extract_posting_date l1) with
        | none => exact Or.inl ⟨rfl, rfl⟩
        | some pd =>
          unfold handleDetail
          cases slice_num l1 149 162 with
          | error e => exact Or.inl ⟨rfl, rfl⟩
          | ok amt =>
            exact Or.inr ⟨_, _, rfl, rfl,
              applyDetail_StRel_same cfg l1 pd amt _ _ hrelm⟩
      · rw [if_neg h3, if_neg h3]
        by_cases h4 : l1.take 2 = t04
        · rw [if_pos h4, if_pos h4]
          exact Or.inr ⟨_, _, rfl, rfl, handleTrailer_StRel _ _ hrelm⟩
        · rw [if_neg h4, if_neg h4]
          exact Or.inr ⟨_, _, rfl, rfl, hrelm⟩
  · have hdate : to_date (extract_posting_date l1) =
        to_date (extract_posting_date l2) := by
      rw [extract_posting_date_congr l1 l2 h148]
    unfold stepLine
    dsimp only
    rw [ht1, ht2]
    rw [if_neg (show ¬ (t03 = t01) by decide)]
    rw [if_neg (show ¬ (t03 = t01) by decide)]
    rw [if_neg (show ¬ (t03 = cfg.target) from fun hc => htar hc.symm)]
    rw [if_neg (show ¬ (t03 = cfg.target) from fun hc => htar hc.symm)]
    rw [if_pos (show t03 = t03 from rfl)]
    rw [if_pos (show t03 = t03 from rfl)]
    rw [hdate]
    cases hd : to_date (extract_posting_date l2) with
    | none => exact Or.inl ⟨rfl, rfl⟩
    | some pd =>
      unfold handleDetail
      cases ha1 : slice_num l1 149 162 with
      | error e1 =>
        cases ha2 : slice_num l2 149 162 with
        | error e2 => exact Or.inl ⟨rfl, rfl⟩
        | ok amt2 =>
          rw [ha1, ha2] at hok
          simp [Except.isOk, Except.toBool] at hok
      | ok amt1 =>
        cases ha2 : slice_num l2 149 162 with
        | error e2 =>
          rw [ha1, ha2] at hok
          simp [Except.isOk, Except.toBool] at hok
        | ok amt2 =>
          exact Or.inr ⟨_, _, rfl, rfl,
            applyDetail_StRel_rel cfg l1 l2 pd amt1 amt2 _ _ hrel h162
              hdir1 hdir2⟩

theorem foldlM_StRel (cfg : Config) (htar : cfg.target ≠ t03) :
    ∀ (ls1 ls2 : List (List Char)) (s1 s2 : PState),
      StRel s1 s2 → ls1.length = ls2.length →
      (∀ p ∈ ls1.zip ls2, LineRel p.1 p.2) →
      (List.foldlM (stepLine cfg) s1 ls1 = .error () ∧
        List.foldlM (stepLine cfg) s2 ls2 = .error ()) ∨
      (∃ u1 u2, List.foldlM (stepLine cfg) s1 ls1 = .ok u1 ∧
        List.foldlM (stepLine cfg) s2 ls2 = .ok u2 ∧ StRel u1 u2) := by
  intro ls1
  induction ls1 with
  | nil =>
    intro ls2 s1 s2 hrel hlen hzip
    have h2 : ls2 = [] := List.length_eq_zero.mp hlen.symm
    subst h2
    exact Or.inr ⟨s1, s2, rfl, rfl, hrel⟩
  | cons l1 t1 ih =>
    intro ls2 s1 s2 hrel hlen hzip
    cases ls2 with
    | nil => simp at hlen
    | cons l2 t2 =>
      have hline : LineRel l1 l2 := hzip (l1, l2) (by simp [List.zip_cons_cons])
      have hzipt : ∀ p ∈ t1.zip t2, LineRel p.1 p.2 := by
        intro p hp
        exact hzip p (by simp [List.zip_cons_cons, hp])
      have hlent : t1.length = t2.length := by
        simp at hlen
        exact hlen
      rw [List.foldlM_cons, List.foldlM_cons]
      rcases stepLine_StRel cfg l1 l2 s1 s2 htar hrel hline with
        ⟨he1, he2⟩ | ⟨u1, u2, ho1, ho2, hrelu⟩
      · rw [he1, he2]
        exact Or.inl ⟨rfl, rfl⟩
      · rw [ho1, ho2]
        exact ih t2 u1 u2 hrelu hlent hzipt

theorem finalize_validations_rel (cfg : Config) (s1 s2 : PState)
    (h : StRel s1 s2) :
    (finalize cfg s1).validations = (finalize cfg s2).validations := by
  obtain ⟨hH, hDR, hCR, hV⟩ := h
  unfold finalize
  rw [hH]
  cases s2.header with
  | none => exact hV
  | some hh =>
    dsimp only
    rw [hV, validate_block_congr hh s1.stats s2.stats _ hDR hCR]

/-- C10 counterexample: two files identical except for the amount bytes
of a detail record whose direction is `"XX"` — amount `"1"` versus the
latin-1 superscript two, which `str.isdigit` accepts but `int()` cannot
parse — do not produce identical validations lists: the superscript
amount raises `ValueError` and aborts its run, while the sibling run
completes. -/
theorem c10_counterexample :
    (process_file cfgR0 [t02, detailLineA]).map (fun r => r.validations) ≠
      (process_file cfgR0 [t02, detailLineSup]).map
        (fun r => r.validations) := by
  decide

/-- C10 amended: the three validation rows of each block depend on the
detail records only through the `"DR"` and `"CR"` running sums — a detail
record whose trimmed direction code is neither `"DR"` nor `"CR"` has its
decoded amount accumulated under that other key in the statistics map,
and two runs on files identical except for the amounts of such records
produce identical validations lists provided each pair of changed amount
fields decodes with the same success status; an amount field that
`str.isdigit` accepts but `int()` cannot parse aborts its run instead of
being accumulated. -/
theorem c10_direction_isolation :
    (∀ (cfg : Config) (st : PState) (l : List Char) (pd : PyDate)
        (amt : Int) (st' : PState),
      l.take 2 = t03 → cfg.target ≠ t03 →
      to_date (extract_posting_date l) = some pd →
      slice_num l 149 162 = .ok amt →
      st.header.isSome = true →
      stepLine cfg st l = .ok st' →
      st'.stats (slice_str l 163 164) =
        st.stats (slice_str l 163 164) + amt) ∧
    (∀ (cfg : Config) (lines1 lines2 : List (List Char)),
      cfg.target ≠ t03 →
      lines1.length = lines2.length →
      (∀ p ∈ lines1.zip lines2, LineRel p.1 p.2) →
      (process_file cfg lines1).map (fun r => r.validations) =
        (process_file cfg lines2).map (fun r => r.validations)) := by
  constructor
  · intro cfg st l pd amt st' ht htar hdate hamt hopen hstep
    unfold stepLine at hstep
    dsimp only at hstep
    rw [ht] at hstep
    rw [if_neg (show ¬ (t03 = t01) by decide),
      if_neg (show ¬ (t03 = cfg.target) from fun hc => htar hc.symm),
      if_pos (show t03 = t03 from rfl), hdate] at hstep
    unfold handleDetail at hstep
    rw [hamt] at hstep
    have h2 := Except.ok.inj hstep
    rw [← h2, applyDetail_stats]
    cases hh : st.header with
    | none =>
      rw [hh] at hopen
      cases hopen
    | some hd2 =>
      dsimp only
      rw [Function.update_same]
  · intro cfg lines1 lines2 htar hlen hzip
    have hinit : StRel initState initState := ⟨rfl, rfl, rfl, rfl⟩
    rcases foldlM_StRel cfg htar lines1 lines2 initState initState hinit hlen
        hzip with ⟨he1, he2⟩ | ⟨u1, u2, ho1, ho2, hrelu⟩
    · unfold process_file runLines
      rw [he1, he2]
    · unfold process_file runLines
      rw [ho1, ho2]
      show Except.ok (finalize cfg u1).validations =
        Except.ok (finalize cfg u2).validations
      rw [finalize_validations_rel cfg u1 u2 hrelu]

/-- C10 witness: two concrete two-line files that differ only in the
amount byte of a detail record whose direction is `"XX"`, both amounts
decoding successfully, produce the same validations. -/
theorem c10_witness :
    (process_file cfgR0 [t02, detailLineA]).map (fun r => r.validations) =
      (process_file cfgR0 [t02, detailLineB]).map (fun r => r.validations) :=
  c10_direction_isolation.2 cfgR0 [t02, detailLineA] [t02, detailLineB]
    (by decide) (by decide) (by decide)
